import Mathlib

/-!
# Verification of the WebDAV Explorer URL/path handling and UI plumbing

This file contains a shallow embedding of the parts of the
`WebDAV-Explorer` QGIS plugin (files `webdav_dock_widget.py`,
`webdav_connection_dialog.py`) that the specification's claims are about,
together with proofs settling those claims.

Python strings are modelled as `List Char` (`Str`).  Each Python `str`
method used by the source gets a faithful Lean counterpart (`pyReplace`
for `str.replace`, `pyRstrip` for `str.rstrip`, ...), restricted to the
ASCII behaviour the source exercises.  Python regular expressions are
modelled with a small backtracking engine (`RE`, `reM`) mirroring CPython's
leftmost/priority matching semantics for the constructs the source uses.
Functions whose Python originals can raise or recurse unboundedly return
`Option` (with `none` for an escaped exception / `RecursionError`), with
fuel standing in for Python's recursion limit.
-/

/-- Python strings, modelled as lists of characters. -/
abbrev Str := List Char

namespace PyStr

/-- `pat.isPrefixOf s` as a Bool, used by most other helpers.
    Mirrors Python's slice-equality tests such as `s[:len(pat)] == pat`. -/
def isPre : Str → Str → Bool
  | [], _ => true
  | _ :: _, [] => false
  | p :: ps, c :: cs => p == c && isPre ps cs

/-- Python `s.startswith(pat)`. -/
def pyStartswith (s pat : Str) : Bool := isPre pat s

/-- Python `s.endswith(pat)`. -/
def pyEndswith (s pat : Str) : Bool := isPre pat.reverse s.reverse

/-- Python `pat in s` (substring containment; the empty string is in
    every string). -/
def pyIn (pat s : Str) : Bool :=
  match s with
  | [] => isPre pat []
  | _ :: cs => isPre pat s || pyIn pat cs

/-- Python `s.replace(old, new)` for a non-empty `old`: replaces all
    non-overlapping occurrences, scanning left to right.  (The source never
    calls `replace` with an empty pattern; for completeness an empty
    pattern leaves the string unchanged.) -/
def pyReplaceAux (p : Char) (ps rep : Str) : Nat → Str → Str
  | 0, s => s
  | fuel + 1, s =>
    if isPre (p :: ps) s then
      rep ++ pyReplaceAux p ps rep fuel (s.drop (ps.length + 1))
    else
      match s with
      | [] => []
      | c :: cs => c :: pyReplaceAux p ps rep fuel cs

def pyReplace (pat rep : Str) (s : Str) : Str :=
  match pat with
  | [] => s
  | p :: ps => pyReplaceAux p ps rep s.length s

/-- Python `s.rstrip(chars)`: remove all trailing characters that belong
    to `cs`. -/
def pyRstrip (s cs : Str) : Str :=
  ((s.reverse).dropWhile (fun c => c ∈ cs)).reverse

/-- Python `s.lstrip(chars)`. -/
def pyLstrip (s cs : Str) : Str :=
  s.dropWhile (fun c => c ∈ cs)

/-- The ASCII whitespace characters recognised by Python `str.strip()`
    (the source only ever deals with ASCII field input). -/
def wsChars : Str := [' ', '\t', '\n', '\x0d', '\x0b', '\x0c']

/-- Python `s.strip()` (ASCII model). -/
def pyStrip (s : Str) : Str := pyRstrip (pyLstrip s wsChars) wsChars

/-- Python `s.lower()` (ASCII model). -/
def pyLower (s : Str) : Str := s.map Char.toLower

/-- Python `s.count(pat)` for non-empty `pat`: number of non-overlapping
    occurrences, scanning left to right. -/
def pyCountAux (p : Char) (ps : Str) : Nat → Str → Nat
  | 0, _ => 0
  | fuel + 1, s =>
    if isPre (p :: ps) s then
      pyCountAux p ps fuel (s.drop (ps.length + 1)) + 1
    else
      match s with
      | [] => 0
      | _ :: cs => pyCountAux p ps fuel cs

def pyCount (pat : Str) (s : Str) : Nat :=
  match pat with
  | [] => 0
  | p :: ps => pyCountAux p ps s.length s

/-- Split `s` at the first occurrence of the (non-empty) separator:
    `some (before, after)` or `none` when the separator does not occur.
    `s.split(sep, 1)` in Python returns `[before, after]` resp. `[s]`. -/
def pySplit1 (sep : Str) (s : Str) : Option (Str × Str) :=
  match s with
  | [] => if isPre sep [] ∧ sep ≠ [] then some ([], []) else none
  | c :: cs =>
    if isPre sep (c :: cs) then some ([], (c :: cs).drop sep.length)
    else match pySplit1 sep cs with
         | some (a, b) => some (c :: a, b)
         | none => none

theorem pySplit1_some_length (p : Char) (ps : Str) :
    ∀ s a b, pySplit1 (p :: ps) s = some (a, b) → b.length < s.length := by
  intro s
  induction s with
  | nil => intro a b h; simp [pySplit1, isPre] at h
  | cons c cs ih =>
    intro a b h
    by_cases hp : isPre (p :: ps) (c :: cs)
    · simp [pySplit1, hp] at h
      rcases h with ⟨_, hb⟩
      subst hb
      simp only [List.length_drop, List.length_cons]
      omega
    · simp only [pySplit1, hp, if_neg, Bool.false_eq_true, if_false] at h
      rcases hsplit : pySplit1 (p :: ps) cs with _ | ⟨a', b'⟩
      · rw [hsplit] at h; exact absurd h (by simp)
      · rw [hsplit] at h
        simp at h
        rcases h with ⟨_, hb⟩
        subst hb
        have := ih a' b' hsplit
        simp only [List.length_cons]
        omega

/-- Python `s.split(sep)` for a non-empty separator.  (Python raises on an
    empty separator; the source always passes non-empty ones.  We return
    `[s]` in that unused case.) -/
def pySplitAux (p : Char) (ps : Str) : Nat → Str → List Str
  | 0, s => [s]
  | fuel + 1, s =>
    match pySplit1 (p :: ps) s with
    | none => [s]
    | some (a, b) => a :: pySplitAux p ps fuel b

def pySplit (sep : Str) (s : Str) : List Str :=
  match sep with
  | [] => [s]
  | p :: ps => pySplitAux p ps (s.length + 1) s

/-- Digit-and-underscore tail of a Python integer literal: after the first
    digit, `int()` accepts further digits with single underscores strictly
    between digits. -/
def pyIntDigits : Str → Nat → Option Nat
  | [], acc => some acc
  | '_' :: c :: rest, acc =>
    if c.isDigit then pyIntDigits rest (acc * 10 + (c.toNat - 48)) else none
  | ['_'], _ => none
  | c :: rest, acc =>
    if c.isDigit then pyIntDigits rest (acc * 10 + (c.toNat - 48)) else none

/-- Magnitude part of `int()`: one digit, then `pyIntDigits`. -/
def pyIntNat : Str → Option Nat
  | [] => none
  | c :: rest => if c.isDigit then pyIntDigits rest (c.toNat - 48) else none

/-- Python `int(s)` (ASCII model): optional surrounding whitespace,
    optional sign, non-empty digit string (single underscores allowed
    between digits); `none` models the `ValueError` raised otherwise. -/
def pyInt (s : Str) : Option Int :=
  match pyStrip s with
  | '+' :: rest => (pyIntNat rest).map Int.ofNat
  | '-' :: rest => (pyIntNat rest).map (fun n => -(n : Int))
  | rest => (pyIntNat rest).map Int.ofNat

/-- `pathlib.PurePath(name).suffix` for a bare final path component
    (which is how the source uses it: `name` never contains `/`):
    `name[i:]` for the last `.` at index `i` with `0 < i < len(name)-1`,
    else the empty string. -/
def pySuffix (name : Str) : Str :=
  match (name.reverse).findIdx? (fun c => c == '.') with
  | none => []
  | some j =>
    let i := name.length - 1 - j
    if 0 < i ∧ i < name.length - 1 then name.drop i else []

/-- UTF-8 bytes of a character (used by percent-encoding). -/
def utf8Bytes (c : Char) : List Nat :=
  let n := c.toNat
  if n < 0x80 then [n]
  else if n < 0x800 then [0xC0 + n / 0x40, 0x80 + n % 0x40]
  else if n < 0x10000 then
    [0xE0 + n / 0x1000, 0x80 + (n / 0x40) % 0x40, 0x80 + n % 0x40]
  else
    [0xF0 + n / 0x40000, 0x80 + (n / 0x1000) % 0x40,
     0x80 + (n / 0x40) % 0x40, 0x80 + n % 0x40]

/-- Uppercase hex digit, as produced by `urllib.parse.quote`. -/
def hexDigit (n : Nat) : Char :=
  if n < 10 then Char.ofNat (48 + n) else Char.ofNat (55 + n)

/-- `urllib.parse.quote(s)` with the default `safe='/'`: keep ASCII
    letters, digits, `_.-~` and `/`; percent-encode everything else as
    UTF-8 bytes. -/
def pyQuote (s : Str) : Str :=
  s.flatMap fun c =>
    if c.isAlphanum || c == '_' || c == '.' || c == '-' || c == '~' || c == '/'
    then [c]
    else (utf8Bytes c).flatMap fun b => ['%', hexDigit (b / 16), hexDigit (b % 16)]

/-- Value of a hex digit character, if any. -/
def hexVal (c : Char) : Option Nat :=
  if '0' ≤ c ∧ c ≤ '9' then some (c.toNat - 48)
  else if 'A' ≤ c ∧ c ≤ 'F' then some (c.toNat - 55)
  else if 'a' ≤ c ∧ c ≤ 'f' then some (c.toNat - 87)
  else none

/-- `urllib.parse.unquote(s)` (ASCII model): decode `%XX` escapes below
    0x80 to the corresponding character; a non-ASCII escape byte is
    modelled as U+FFFD (multi-byte UTF-8 reassembly is not modelled — the
    claims never depend on non-ASCII hrefs). -/
def pyUnquote : Str → Str
  | [] => []
  | '%' :: h1 :: h2 :: rest =>
    match hexVal h1, hexVal h2 with
    | some a, some b =>
      (if a * 16 + b < 0x80 then Char.ofNat (a * 16 + b) else '�') :: pyUnquote rest
    | _, _ => '%' :: pyUnquote (h1 :: h2 :: rest)
  | c :: rest => c :: pyUnquote rest

end PyStr

open PyStr

/-!
## A small backtracking regular-expression engine

CPython's `re` module performs backtracking search with well-defined
priorities: alternatives are tried left to right, a greedy repetition
prefers one more iteration, a lazy one prefers to stop, and a repetition
whose body matched the empty string stops iterating.  `reM` implements
exactly that strategy in continuation-passing style over the constructs
the source's patterns use (literals, `.`, character classes, grouping,
alternation, greedy/lazy `*`/`+`, capture groups, backreferences).  Fuel
bounds repetition unrolling; since every repetition body in the source's
patterns consumes at least one character when it matches, the generous
fuel used by the entry points below never runs out.
-/

/-- Regular expressions (the fragment used by the source). -/
inductive RE where
  | eps
  | lit (c : Char)
  | anyc
  | cls (neg : Bool) (cs : List Char)
  | cat (a b : RE)
  | alt (a b : RE)
  | star (lazy : Bool) (r : RE)
  | grp (i : Nat) (r : RE)
  | bref (i : Nat)
deriving Repr

/-- Capture environment: group index to captured text, most recent first. -/
abbrev Caps := List (Nat × Str)

/-- One level of the backtracking matcher, structurally recursive on the
    regex; `rec` is the engine with one unit of fuel less, used for the
    repetition unrollings.  `reMGo rec r s cp k` tries to match `r`
    against a prefix of `s` with capture state `cp`, calling the
    continuation `k` on the remainder in CPython's priority order and
    returning the first success. -/
def reMGo {α : Type}
    (rec : RE → Str → Caps → (Str → Caps → Option α) → Option α) :
    RE → Str → Caps → (Str → Caps → Option α) → Option α
  | .eps, s, cp, k => k s cp
  | .lit c, s, cp, k =>
    match s with
    | [] => none
    | x :: xs => if x == c then k xs cp else none
  | .anyc, s, cp, k =>
    match s with
    | [] => none
    | x :: xs => if x == '\n' then none else k xs cp
  | .cls neg cs, s, cp, k =>
    match s with
    | [] => none
    | x :: xs =>
      if (if neg then !(cs.contains x) else cs.contains x) then k xs cp else none
  | .cat a b, s, cp, k =>
    reMGo rec a s cp (fun s2 cp2 => reMGo rec b s2 cp2 k)
  | .alt a b, s, cp, k =>
    match reMGo rec a s cp k with
    | some res => some res
    | none => reMGo rec b s cp k
  | .star lz r, s, cp, k =>
    if lz then
      match k s cp with
      | some res => some res
      | none =>
        rec r s cp (fun s2 cp2 =>
          if s2.length < s.length then rec (.star lz r) s2 cp2 k else none)
    else
      match rec r s cp (fun s2 cp2 =>
          if s2.length < s.length then rec (.star lz r) s2 cp2 k else none) with
      | some res => some res
      | none => k s cp
  | .grp i r, s, cp, k =>
    reMGo rec r s cp (fun s2 cp2 => k s2 ((i, s.take (s.length - s2.length)) :: cp2))
  | .bref i, s, cp, k =>
    match cp.lookup i with
    | none => none
    | some v => if isPre v s then k (s.drop v.length) cp else none

/-- The backtracking matcher; the fuel bounds repetition unrolling (each
    unrolling of a `star` spends one unit). -/
def reM {α : Type} : Nat → RE → Str → Caps → (Str → Caps → Option α) → Option α
  | 0 => reMGo (fun _ _ _ _ => none)
  | fuel + 1 => reMGo (reM fuel)

/-- Anchored match (`re.match`): captures and the unconsumed remainder. -/
def reMatchRem (r : RE) (s : Str) : Option (Caps × Str) :=
  reM (16 * (s.length + 2)) r s [] (fun rem cp => some (cp, rem))

/-- `re.match`: captures of the leftmost anchored match, if any. -/
def reMatch (r : RE) (s : Str) : Option Caps :=
  (reMatchRem r s).map Prod.fst

/-- `match.group(i)`: `none` when the group did not participate. -/
def reGroup (cp : Caps) (i : Nat) : Option Str := cp.lookup i

/-- `re.search`: try an anchored match at each start position, left to
    right. -/
def reSearch (r : RE) (s : Str) : Option Caps :=
  match reMatch r s with
  | some cp => some cp
  | none =>
    match s with
    | [] => none
    | _ :: cs => reSearch r cs

/-- `re.findall` for a pattern with one capture group: group-1 texts of
    successive non-overlapping matches (advancing one character past an
    empty match, as CPython does). -/
def reFindallAux : Nat → RE → Str → List Str
  | 0, _, _ => []
  | fuel + 1, r, s =>
    match reMatchRem r s with
    | some (cp, rem) =>
      let g := (cp.lookup 1).getD []
      if rem.length < s.length then g :: reFindallAux fuel r rem
      else
        match rem with
        | [] => [g]
        | _ :: cs => g :: reFindallAux fuel r cs
    | none =>
      match s with
      | [] => []
      | _ :: cs => reFindallAux fuel r cs

/-- `re.findall` entry point. -/
def reFindall (r : RE) (s : Str) : List Str :=
  reFindallAux (s.length + 1) r s

/-- Concatenation of a literal string as a regex. -/
def reLits (s : Str) : RE := (s.map RE.lit).foldr .cat .eps

/-- `[^/]` -/
def notSlash : RE := .cls true ['/']

/-- `r+` (greedy) -/
def rePlus (r : RE) : RE := .cat r (.star false r)

/-- `[^/]+` -/
def notSlashPlus : RE := rePlus notSlash

/-- `.*` (greedy) -/
def dotStar : RE := .star false .anyc

/-- `.+` (greedy) -/
def dotPlus : RE := rePlus .anyc

/-- `.*?` (lazy) -/
def dotStarLazy : RE := .star true .anyc

/-!
## `webdav_dock_widget.py`: URL / path normalisation

The explorer widget's state that these functions consult is reduced to the
fields they actually read (the current connection's `url`, the
`current_path`, the `current_mode`).  Functions that can raise return
`Option`; `clean_nextcloud_path` additionally takes fuel standing in for
Python's recursion limit (`none` models the `RecursionError` its
self-recursion can produce).
-/

namespace WebDAV

/-- One of the four `nextcloud_patterns` of `clean_nextcloud_path` built
    around a `<seg>/files/`-style keyword:
    `(.*/<seg>)/(.*?/)*<seg'>/(.*)` where `<seg> = kw + [^/]+` — concretely
    `r'(.*/remote\.php/dav/files/[^/]+)/(.*?/)*remote\.php/dav/files/[^/]+/(.*)'`
    for `kw = "remote.php/dav/files/"`, and likewise for the `index.php`,
    `owncloud/remote.php` and `mdrive/remote.php` variants. -/
def ncFilesPattern (kw : Str) : RE :=
  .cat (.grp 1 (.cat dotStar (.cat (reLits ('/' :: kw)) notSlashPlus)))
    (.cat (.lit '/')
      (.cat (.star false (.grp 2 (.cat dotStarLazy (.lit '/'))))
        (.cat (reLits kw)
          (.cat notSlashPlus (.cat (.lit '/') (.grp 3 dotStar))))))

/-- `r'(.*/public\.php/webdav)/(.*?/)*public\.php/webdav/(.*)'` (the
    shared-link pattern of `clean_nextcloud_path`). -/
def ncPublicPattern : RE :=
  .cat (.grp 1 (.cat dotStar (reLits "/public.php/webdav".data)))
    (.cat (.lit '/')
      (.cat (.star false (.grp 2 (.cat dotStarLazy (.lit '/'))))
        (.cat (reLits "public.php/webdav/".data) (.grp 3 dotStar))))

/-- The `nextcloud_patterns` list of `clean_nextcloud_path`, in source
    order. -/
def nextcloudPatterns : List RE :=
  [ ncFilesPattern "remote.php/dav/files/".data
  , ncFilesPattern "index.php/dav/files/".data
  , ncFilesPattern "owncloud/remote.php/dav/files/".data
  , ncFilesPattern "mdrive/remote.php/dav/files/".data
  , ncPublicPattern ]

/-- The `segments_to_check` list of `clean_nextcloud_path` (and of
    `clean_nextcloud_url`). -/
def segmentsToCheck : List Str :=
  [ "/remote.php/".data, "/index.php/".data, "/mdrive/".data
  , "/owncloud/".data, "/public.php/webdav/".data ]

/-- Case 2 of `clean_nextcloud_path`: try each `nextcloud_pattern` with
    `re.match`; on the first match return group 3 (or `''`), `/`-prefixed. -/
def cleanCase2 (path : Str) : Option Str :=
  match nextcloudPatterns.findSome? (fun pat => reMatch pat path) with
  | none => none
  | some cp =>
    let cleanPath := (reGroup cp 3).getD []
    -- `match.group(3) if match.group(3) else ''`: an empty capture is
    -- falsy in Python, so both `none` and `some []` give `''`.
    some (if pyStartswith cleanPath "/".data then cleanPath else '/' :: cleanPath)

/-- Case 3 of `clean_nextcloud_path`: first segment of
    `segments_to_check` occurring more than once; rebuild from its last
    part. -/
def cleanCase3 (path : Str) : Option Str :=
  segmentsToCheck.findSome? fun segment =>
    if pyIn segment path then
      let parts := pySplit segment path
      if parts.length > 2 then
        let reconstructed := segment ++ parts.getLast!
        some (if pyStartswith reconstructed "/".data then reconstructed
              else '/' :: reconstructed)
      else none
    else none

/-- The non-recursive tail of `clean_nextcloud_path` (its cases 2, 3 and
    4, tried in source order). -/
def cleanCases234 (path : Str) : Str :=
  match cleanCase2 path with
  | some r => r
  | none =>
    match cleanCase3 path with
    | some r => r
    | none => if pyStartswith path "/".data then path else '/' :: path

/-- `clean_nextcloud_path(path)` with the connection url `url`.  Case 1
    recurses when `path` starts with `base_url = url.rstrip('/')`; the
    fuel models Python's recursion limit, `none` a `RecursionError`. -/
def cleanNextcloudPath (fuel : Nat) (url : Str) (path : Str) : Option Str :=
  match fuel with
  | 0 => none
  | fuel + 1 =>
    if path = [] then some "/".data
    else
      if pyStartswith path (pyRstrip url "/".data) then
        if path.drop (pyRstrip url "/".data).length = [] then some "/".data
        else
          cleanNextcloudPath fuel url
            (if pyStartswith (path.drop (pyRstrip url "/".data).length) "/".data
             then path.drop (pyRstrip url "/".data).length
             else '/' :: path.drop (pyRstrip url "/".data).length)
      else
        some (cleanCases234 path)

/-- Termination of `clean_nextcloud_path` on a given input: some amount
    of fuel (recursion depth) yields a value. -/
def cleanTerminates (url path : Str) : Prop :=
  ∃ fuel r, cleanNextcloudPath fuel url path = some r

/-- `'public.php/webdav/public.php/webdav'` -/
def pubDup : Str := "public.php/webdav/public.php/webdav".data

/-- `'public.php/webdav'` -/
def pubSingle : Str := "public.php/webdav".data

/-- `'remote.php/dav/remote.php/dav'` -/
def remDup : Str := "remote.php/dav/remote.php/dav".data

/-- `'remote.php/dav'` -/
def remSingle : Str := "remote.php/dav".data

/-- Step 1 of `sanitize_webdav_url`: collapse a doubled
    `public.php/webdav` (one `str.replace` pass). -/
def sanitizeStep1 (url : Str) : Str :=
  if pyIn pubDup url then pyReplace pubDup pubSingle url else url

/-- Step 2: collapse a doubled `remote.php/dav`. -/
def sanitizeStep2 (url : Str) : Str :=
  if pyIn remDup url then pyReplace remDup remSingle url else url

/-- Step 3: repair a mangled scheme (`http:/...` →  `http://...`,
    `https:/...` → `https://...`; the second test runs on the updated
    url, as in the source). -/
def sanitizeStep3 (url : Str) : Str :=
  let u1 :=
    if pyStartswith url "http:/".data ∧ ¬ pyStartswith url "http://".data
    then pyReplace "http:/".data "http://".data url else url
  if pyStartswith u1 "https:/".data ∧ ¬ pyStartswith u1 "https://".data
  then pyReplace "https:/".data "https://".data u1 else u1

/-- The `while '//' in rest: rest = rest.replace('//', '/')` loop of
    step 4.  Each pass shortens the string, so `rest.length` passes always
    reach the fixed point (proved below). -/
def collapseSlashes : Nat → Str → Str
  | 0, rest => rest
  | fuel + 1, rest =>
    if pyIn "//".data rest then
      collapseSlashes fuel (pyReplace "//".data "/".data rest)
    else rest

/-- Step 4: split at the first `'://'` (if any) and collapse double
    slashes in the part after it.  (`'://' in url` holds exactly when the
    split succeeds.) -/
def sanitizeStep4 (url : Str) : Str :=
  match pySplit1 "://".data url with
  | some (protocol, rest) =>
    protocol ++ "://".data ++ collapseSlashes rest.length rest
  | none => url

/-- `r'public\.php/webdav/([^/]+/.+)'` (first CRAIG pattern). -/
def craigPat1 : RE :=
  .cat (reLits "public.php/webdav/".data)
    (.grp 1 (.cat notSlashPlus (.cat (.lit '/') dotPlus)))

/-- `r'public\.php/webdav/public\.php/webdav/([^/]+/.+)'` (second CRAIG
    pattern). -/
def craigPat2 : RE :=
  .cat (reLits "public.php/webdav/public.php/webdav/".data)
    (.grp 1 (.cat notSlashPlus (.cat (.lit '/') dotPlus)))

/-- The regex-based CRAIG reconstruction: on the first pattern that
    `re.search` matches, rebuild the url as
    `url.split('/public.php')[0] + '/public.php/webdav/' + group(1)`. -/
def craigRegexStep (url : Str) : Str :=
  match [craigPat1, craigPat2].findSome? (fun pat => reSearch pat url) with
  | none => url
  | some cp =>
    let path := (reGroup cp 1).getD []
    let base := (pySplit "/public.php".data url).headI
    base ++ "/public.php/webdav/".data ++ path

/-- The forced CRAIG cleanup that follows the regex step: if
    `/public.php/webdav` still occurs more than once, keep only the first
    and last parts of the `'/public.php/webdav/'` split. -/
def craigForceStep (url : Str) : Str :=
  if pyCount "/public.php/webdav".data url > 1 then
    let parts := pySplit "/public.php/webdav/".data url
    if parts.length > 1 then
      parts.headI ++ "/public.php/webdav/".data ++ parts.getLast!
    else url
  else url

/-- The CRAIG-specific last block of `sanitize_webdav_url` (guarded by
    `'craig.fr' in url and '/s/opendata' in url`). -/
def sanitizeCraig (url : Str) : Str :=
  if pyIn "craig.fr".data url ∧ pyIn "/s/opendata".data url then
    if pyIn "/public.php/webdav/".data url ∧
       pyCount "/public.php/webdav".data url > 1 then
      craigForceStep (craigRegexStep url)
    else url
  else url

/-- `sanitize_webdav_url(url)`: `none` models the `return None` taken for
    a scheme with no host (`url.split('://', 1)[1] == ''`); the falsy
    empty string is returned unchanged, as in the source. -/
def sanitizeWebdavUrl (url : Str) : Option Str :=
  if url = [] then some url
  else
    let u3 := sanitizeStep3 (sanitizeStep2 (sanitizeStep1 url))
    match pySplit1 "://".data u3 with
    | some (_, []) => none
    | _ => some (sanitizeCraig (sanitizeStep4 u3))

/-- Python `s[:-n]` (empty for `n = 0`, as in Python). -/
def pySliceToNeg (s : Str) (n : Nat) : Str :=
  if n = 0 then [] else s.take (s.length - n)

/-- Python `s.strip(chars)`. -/
def pyStripChars (s cs : Str) : Str := pyRstrip (pyLstrip s cs) cs

/-- `is_craig_nextcloud_server` (reads only the connection url). -/
def isCraigNextcloudServer (connUrl : Str) : Bool :=
  let baseUrl := pyLower connUrl
  pyIn "/s/opendata".data baseUrl || pyIn "craig.fr".data baseUrl

/-- `is_nextcloud_shared_link`. -/
def isNextcloudSharedLink (connUrl : Str) : Bool :=
  let url := pyLower connUrl
  pyIn "/s/".data url || pyIn "/index.php/s/".data url

/-- The record returned by `get_nextcloud_share_info`. -/
structure ShareInfo where
  base : Str
  token : Str
  publicWebdav : Str
  downloadBase : Str
deriving Repr, DecidableEq

/-- `get_nextcloud_share_info`. -/
def getNextcloudShareInfo (connUrl : Str) : Option ShareInfo :=
  if pyIn "/s/".data connUrl then
    let base := (pySplit "/s/".data connUrl).headI
    let token := (pySplit "/".data ((pySplit "/s/".data connUrl).getD 1 [])).headI
    some { base := base, token := token
         , publicWebdav := base ++ "/public.php/webdav".data
         , downloadBase := base ++ "/s/".data ++ token ++ "/download".data }
  else none

/-- `build_craig_download_url_v2(folder_path, filename)`. -/
def buildCraigDownloadUrlV2 (connUrl folderPath fileName : Str) : Option Str :=
  let baseUrl := pyRstrip connUrl "/".data
  let baseParts := pySplit "/s/".data baseUrl
  if baseParts.length < 2 then none
  else
    let domain := baseParts.headI
    let token := (pySplit "/".data (baseParts.getD 1 [])).headI
    let cleanPath := folderPath
    let cleanPath :=
      if pyIn "public.php/webdav/".data cleanPath
      then pyReplace "public.php/webdav/".data [] cleanPath else cleanPath
    let cleanPath :=
      if ¬ pyStartswith cleanPath "/".data then '/' :: cleanPath else cleanPath
    let cleanPath :=
      if pyEndswith cleanPath "/".data then pySliceToNeg cleanPath 1 else cleanPath
    let cleanPath := if cleanPath = [] then "/".data else cleanPath
    some (domain ++ "/s/".data ++ token ++ "/download?path=".data
          ++ pyQuote cleanPath ++ "&files=".data ++ fileName)

/-- `build_download_url(filename)`.  Its `try/except` fallback (`urljoin`)
    is unreachable: every operation in the body is total on strings, so it
    is not modelled. -/
def buildDownloadUrl (connUrl currentPath fileName : Str) : Str :=
  let baseUrl := pyRstrip connUrl "/".data
  -- Cas 1: Nextcloud shared link
  let case1 : Option Str :=
    if isNextcloudSharedLink connUrl then
      match getNextcloudShareInfo connUrl with
      | some shareInfo =>
        let path := currentPath
        let path := if path = "/".data then [] else path
        let path := if pyStartswith path "/".data then path.drop 1 else path
        let path :=
          if path ≠ [] ∧ ¬ pyEndswith path "/".data then path ++ ['/'] else path
        some (shareInfo.downloadBase ++ "?path=/".data ++ path ++ fileName)
      | none => none
    else none
  match case1 with
  | some u => u
  | none =>
    -- Cas 2: CRAIG / share-style urls
    if pyIn "/s/opendata".data baseUrl || pyIn "/s/".data baseUrl then
      let folderPath := if currentPath ≠ "/".data then currentPath else []
      match buildCraigDownloadUrlV2 connUrl folderPath fileName with
      | some craigUrl => craigUrl
      | none =>
        baseUrl ++ "/download?path=/".data ++ pyQuote folderPath
        ++ "&files=".data ++ fileName
    else
      -- Cas 3: standard WebDAV/HTTP
      if currentPath = "/".data then baseUrl ++ '/' :: fileName
      else
        let path := currentPath
        let path := if ¬ pyEndswith path "/".data then path ++ ['/'] else path
        baseUrl ++ path ++ fileName

/-- `https?://[^/]+` followed by `mid` then `[^/]+`, wrapped in group 1 —
    the shape of group 1 in the `clean_nextcloud_url` patterns. -/
def cnuGroup1 (mid : Str) : RE :=
  .grp 1 (.cat (reLits "http".data)
    (.cat (.alt (.lit 's') .eps)
      (.cat (reLits "://".data)
        (.cat notSlashPlus (.cat (reLits mid) notSlashPlus)))))

/-- `r'(https?://[^/]+/mdrive/remote\.php/dav/files/[^/]+)/mdrive/remote\.php/dav/files/[^/]+/(.+)'` -/
def cnuSpecific1 : RE :=
  .cat (cnuGroup1 "/mdrive/remote.php/dav/files/".data)
    (.cat (reLits "/mdrive/remote.php/dav/files/".data)
      (.cat notSlashPlus (.cat (.lit '/') (.grp 2 dotPlus))))

/-- `r'(https?://[^/]+/public\.php/webdav)/public\.php/webdav/(.+)'` -/
def cnuSpecific2 : RE :=
  .cat (.grp 1 (.cat (reLits "http".data)
    (.cat (.alt (.lit 's') .eps)
      (.cat (reLits "://".data)
        (.cat notSlashPlus (reLits "/public.php/webdav".data))))))
    (.cat (reLits "/public.php/webdav/".data) (.grp 2 dotPlus))

/-- `r'(https?://[^/]+)'` (the `server_part` pattern). -/
def cnuServerPat : RE :=
  .grp 1 (.cat (reLits "http".data)
    (.cat (.alt (.lit 's') .eps) (.cat (reLits "://".data) notSlashPlus)))

/-- `r'(https?://[^/]+/[^/]+/<kw>/files/[^/]+)/(?:[^/]+/)*<kw>/files/[^/]+/(.+)'`
    for `<kw>/files/` given as `kw` (`remote.php/dav/files/` or
    `index.php/dav/files/`). -/
def cnuNcPattern (kw : Str) : RE :=
  .cat (.grp 1 (.cat (reLits "http".data)
    (.cat (.alt (.lit 's') .eps)
      (.cat (reLits "://".data)
        (.cat notSlashPlus
          (.cat (.lit '/')
            (.cat notSlashPlus (.cat (.lit '/') (.cat (reLits kw) notSlashPlus)))))))))
    (.cat (.lit '/')
      (.cat (.star false (.cat notSlashPlus (.lit '/')))
        (.cat (reLits kw) (.cat notSlashPlus (.cat (.lit '/') (.grp 2 dotPlus))))))

/-- `r'(https?://[^/]+/[^/]+/[^/]+/[^/]+/[^/]+)/\1/(.+)'` (the
    backreference pattern of `clean_nextcloud_url`). -/
def cnuDupPattern : RE :=
  .cat (.grp 1 (.cat (reLits "http".data)
    (.cat (.alt (.lit 's') .eps)
      (.cat (reLits "://".data)
        (.cat notSlashPlus
          (.cat (.lit '/')
            (.cat notSlashPlus
              (.cat (.lit '/')
                (.cat notSlashPlus
                  (.cat (.lit '/')
                    (.cat notSlashPlus (.cat (.lit '/') notSlashPlus))))))))))))
    (.cat (.lit '/') (.cat (.bref 1) (.cat (.lit '/') (.grp 2 dotPlus))))

/-- The components CPython's loop skips when re-segmenting in
    `clean_nextcloud_url`. -/
def cnuSkipComponents : List Str :=
  [ "remote.php".data, "dav".data, "files".data, "mdrive".data, "index.php".data ]

/-- Inner `for i, comp in enumerate(path_components)` loop: first
    component that is non-empty and not a NextCloud url component, with
    the components from it onwards. -/
def cnuFirstRealComp : List Str → Option (List Str)
  | [] => none
  | c :: cs =>
    if c ≠ [] ∧ ¬ cnuSkipComponents.contains c then some (c :: cs)
    else cnuFirstRealComp cs

/-- `clean_nextcloud_url(raw_url)` (the `server` variable computed from
    `cnuServerPat` in the source is never used afterwards, so it is not
    reproduced). -/
def cleanNextcloudUrl (_connUrl rawUrl : Str) : Str :=
  if rawUrl = [] ∨ ¬ pyStartswith rawUrl "http".data then rawUrl
  else
    match [cnuSpecific1, cnuSpecific2].findSome? (fun p => reMatch p rawUrl) with
    | some cp => (reGroup cp 1).getD [] ++ '/' :: (reGroup cp 2).getD []
    | none =>
      match [ cnuNcPattern "remote.php/dav/files/".data
            , cnuNcPattern "index.php/dav/files/".data
            , cnuDupPattern ].findSome? (fun p => reMatch p rawUrl) with
      | some cp => (reGroup cp 1).getD [] ++ '/' :: (reGroup cp 2).getD []
      | none =>
        let segmentStep : Option Str :=
          segmentsToCheck.findSome? fun segment =>
            if pyIn segment rawUrl ∧ pyCount segment rawUrl > 1 then
              let parts := pySplit segment rawUrl
              if parts.length > 2 then
                let pfx := parts.headI ++ segment
                let pathPart := parts.getLast?.getD []
                if pyIn "/".data pathPart then
                  match cnuFirstRealComp (pySplit "/".data pathPart) with
                  | some comps => some (pfx ++ List.intercalate "/".data comps)
                  | none => none
                else none
              else none
            else none
        segmentStep.getD rawUrl

/-- `fix_shared_link_path(path)` (reads the current mode and connection
    url). -/
def fixSharedLinkPath (mode connUrl path : Str) : Str :=
  if ¬ (mode = "nextcloud_share".data) ∨ path = [] then path
  else
    let baseUrl := pyLower connUrl
    -- CRAIG sub-directory special case: both inner `if`s return when they
    -- fire, otherwise control falls through to the duplication cleanup.
    let craigResult : Option Str :=
      if pyIn "craig.fr".data baseUrl ∧ pyIn "/s/opendata".data baseUrl then
        if pyIn "/s/opendata/".data baseUrl ∧
           (pySplit "/s/opendata/".data baseUrl).length > 1 then
          let subdirectory :=
            pyStripChars ((pySplit "/s/opendata/".data baseUrl).getD 1 []) "/".data
          if subdirectory ≠ [] then
            if path = "/".data then some ('/' :: subdirectory ++ ['/'])
            else if ¬ pyStartswith path ('/' :: subdirectory) ∧
                    ¬ pyIn ('/' :: subdirectory ++ ['/']) path then
              some ('/' :: subdirectory
                    ++ (if pyStartswith path "/".data then path else '/' :: path))
            else none
          else none
        else none
      else none
    match craigResult with
    | some r => r
    | none =>
      -- 1. duplication cleanup for `public.php/webdav`
      let path1 :=
        if pyCount "public.php/webdav".data path > 1 then
          let parts := pySplit "public.php/webdav/".data path
          if parts.length > 1 then
            let p := parts.getLast?.getD []
            if pyStartswith p "/".data then p else '/' :: p
          else path
        else path
      -- 2. ensure a leading slash
      if pyStartswith path1 "/".data then path1 else '/' :: path1

/-- `navigate_to_path(path)`: the value assigned to `self.current_path`.
    `none` models a `RecursionError` escaping from `clean_nextcloud_path`
    (in which case `current_path` is not assigned).  The navigation
    history bookkeeping and the final `refresh_current_location()` (which
    catches its own errors) do not touch `current_path` and are not
    modelled. -/
def navigateToPath (fuel : Nat) (mode connUrl path : Str) : Option Str :=
  match cleanNextcloudPath fuel connUrl
      (if mode = "nextcloud_share".data ∧ isNextcloudSharedLink connUrl then
        fixSharedLinkPath mode connUrl path
      else path) with
  | none => none
  | some cleanPath =>
    some (if cleanPath ≠ "/".data
          then pyRstrip cleanPath "/".data ++ ['/']
          else cleanPath)

end WebDAV

/-!
## `webdav_connection_dialog.py`
-/

namespace WebDAVDialog

open WebDAV

/-- The text of the dialog's five `QLineEdit` fields. -/
structure DialogFields where
  nameEdit : Str
  urlEdit : Str
  usernameEdit : Str
  passwordEdit : Str
  rootPathEdit : Str

/-- A connection profile as produced by `get_connection_info` and stored
    by `save_connection`. -/
structure ConnInfo where
  name : Str
  url : Str
  username : Str
  password : Str
  rootPath : Str
deriving Repr, DecidableEq

/-- `get_connection_info()`. -/
def getConnectionInfo (f : DialogFields) : ConnInfo :=
  { name := pyStrip f.nameEdit
  , url := pyRstrip (pyStrip f.urlEdit) "/".data
  , username := pyStrip f.usernameEdit
  , password := f.passwordEdit
  , rootPath := if pyStrip f.rootPathEdit = [] then "/".data
                else pyStrip f.rootPathEdit }

/-- `accept()`: `true` when `super().accept()` is reached (the dialog
    closes with the `Accepted` result), `false` when an early `return`
    keeps it open. -/
def dialogAccept (f : DialogFields) : Bool :=
  let connInfo := getConnectionInfo f
  if pyStrip connInfo.name = [] then false
  else if pyStrip connInfo.url = [] then false
  else true

/-- The profile produced by `show_connection_dialog`: it calls
    `get_connection_info()` only when `dialog.exec_() == QDialog.Accepted`. -/
def dialogProfile (f : DialogFields) : Option ConnInfo :=
  if dialogAccept f then some (getConnectionInfo f) else none

end WebDAVDialog

/-!
## Connection persistence (`save_connection` / `load_connections`)

Modelled from the spec: the profiles are "stored via the host's generic
settings store" — Qt's `QSettings`, which is not part of this repository.
It is modelled as a flat map from key paths (one segment per
`beginGroup` plus the key) to string values; `childGroups()` enumerates
the distinct direct sub-group names.
-/

namespace WebDAVSettings

open WebDAV WebDAVDialog

/-- The settings store: key paths (group segments then key) to values,
    most recent binding first. -/
abbrev SettingsStore := List (List Str × Str)

/-- `settings.setValue(key, value)` at a full path. -/
def setValue (store : SettingsStore) (path : List Str) (v : Str) : SettingsStore :=
  (path, v) :: store

/-- Read a value back (`settings.value(key, default)`): the most recent
    binding wins. -/
def getValue (store : SettingsStore) (path : List Str) (dflt : Str) : Str :=
  match store with
  | [] => dflt
  | (p, v) :: rest => if p = path then v else getValue rest path dflt

/-- The group all profiles live under. -/
def connGroup : Str := "WebDAVGenericExplorer/connections".data

/-- `settings.childGroups()` inside `connGroup`: the distinct names that
    have at least one stored key. -/
def childGroups (store : SettingsStore) : List Str :=
  (store.filterMap fun kv =>
    match kv.1 with
    | g :: name :: _ :: [] => if g = connGroup then some name else none
    | _ => none).dedup

/-- `save_connection(conn_info)`: one `setValue` per item of the profile
    dict, in Python's (insertion-ordered) dict order. -/
def saveConnection (store : SettingsStore) (c : ConnInfo) : SettingsStore :=
  let grp := [connGroup, c.name]
  let store := setValue store (grp ++ ["name".data]) c.name
  let store := setValue store (grp ++ ["url".data]) c.url
  let store := setValue store (grp ++ ["username".data]) c.username
  let store := setValue store (grp ++ ["password".data]) c.password
  setValue store (grp ++ ["root_path".data]) c.rootPath

/-- `load_connections()`: the rebuilt `self.connections` contents, one
    profile per child group. -/
def loadConnections (store : SettingsStore) : List ConnInfo :=
  (childGroups store).map fun connName =>
    { name := connName
    , url := getValue store [connGroup, connName, "url".data] []
    , username := getValue store [connGroup, connName, "username".data] []
    , password := getValue store [connGroup, connName, "password".data] []
    , rootPath := getValue store [connGroup, connName, "root_path".data] "/".data }

end WebDAVSettings

/-!
## File-type dispatch and WebDAV listing parsing
-/

namespace WebDAV

/-- The handler methods a `file_handlers` entry can point to, as opaque
    tags. -/
inductive Handler where
  | handleRasterFile
  | handleVectorFile
  | handleGeopackageFile
  | handleDatabaseFile
  | handleArchiveFile
  | handleQgisProject
  | handleMetadataFile
  | handleGenericFile
  | handleFolder
deriving Repr, DecidableEq

/-- One value of the `file_handlers` table:
    `{'type': ..., 'icon': ..., 'handler': ...}`. -/
structure FileInfo where
  ftype : Str
  icon : Str
  handler : Handler
deriving Repr, DecidableEq

/-- The `file_handlers` dict built in `__init__`, in source order. -/
def fileHandlers : List (Str × FileInfo) :=
  [ (".tif".data, ⟨"raster".data, "raster".data, .handleRasterFile⟩)
  , (".tiff".data, ⟨"raster".data, "raster".data, .handleRasterFile⟩)
  , (".ecw".data, ⟨"raster".data, "raster".data, .handleRasterFile⟩)
  , (".jp2".data, ⟨"raster".data, "raster".data, .handleRasterFile⟩)
  , (".shp".data, ⟨"vector".data, "vector".data, .handleVectorFile⟩)
  , (".gpkg".data, ⟨"geopackage".data, "database".data, .handleGeopackageFile⟩)
  , (".sqlite".data, ⟨"database".data, "database".data, .handleDatabaseFile⟩)
  , (".geojson".data, ⟨"vector".data, "vector".data, .handleVectorFile⟩)
  , (".kml".data, ⟨"vector".data, "vector".data, .handleVectorFile⟩)
  , (".zip".data, ⟨"archive".data, "archive".data, .handleArchiveFile⟩)
  , (".tar".data, ⟨"archive".data, "archive".data, .handleArchiveFile⟩)
  , (".gz".data, ⟨"archive".data, "archive".data, .handleArchiveFile⟩)
  , (".qgs".data, ⟨"qgis_project".data, "project".data, .handleQgisProject⟩)
  , (".qgz".data, ⟨"qgis_project".data, "project".data, .handleQgisProject⟩)
  , (".xml".data, ⟨"metadata".data, "text".data, .handleMetadataFile⟩)
  , (".json".data, ⟨"metadata".data, "text".data, .handleMetadataFile⟩)
  , (".html".data, ⟨"html_debug".data, "text".data, .handleGenericFile⟩) ]

/-- The default used by
    `self.file_handlers.get(ext, {'type': 'unknown', 'icon': 'file',
    'handler': self.handle_generic_file})`. -/
def unknownFileInfo : FileInfo := ⟨"unknown".data, "file".data, .handleGenericFile⟩

/-- The folder entry
    `{'type': 'folder', 'icon': 'folder', 'handler': self.handle_folder}`. -/
def folderFileInfo : FileInfo := ⟨"folder".data, "folder".data, .handleFolder⟩

/-- `self.file_handlers.get(ext, default)`. -/
def fileHandlersGet (ext : Str) : FileInfo :=
  (fileHandlers.lookup ext).getD unknownFileInfo

/-- An `xml.etree.ElementTree` element: tag, text, children.  The parsed
    tree stands in for `ET.fromstring(xml_content)` (the parser itself is
    library code outside this repository). -/
inductive XML where
  | elem (tag : Str) (text : Option Str) (children : List XML)

/-- Element tag. -/
def XML.tag : XML → Str
  | .elem t _ _ => t

/-- Element text (`None` when absent, as in ElementTree). -/
def XML.text : XML → Option Str
  | .elem _ t _ => t

mutual

/-- `element.findall('.//tag')`: all strict descendants with the given
    tag, in document order (mutually with the list version, to keep the
    recursion structural). -/
def findallDesc (tag : Str) : XML → List XML
  | .elem _ _ cs => findallDescList tag cs

def findallDescList (tag : Str) : List XML → List XML
  | [] => []
  | c :: cs =>
    ((if c.tag = tag then [c] else []) ++ findallDesc tag c)
    ++ findallDescList tag cs

end

/-- `element.find('.//tag')`: first such descendant or `None`. -/
def findDesc (tag : Str) (x : XML) : Option XML :=
  (findallDesc tag x).head?

/-- The dict built by `extract_item_info` (the purely cosmetic
    `size_formatted` and `description` fields — products of the
    float-formatting helper `format_size` — are not modelled). -/
structure Item where
  name : Str
  path : Str
  fullPath : Str
  isFolder : Bool
  size : Int
  date : Option Str
  contentType : Option Str
  extension : Str
  fileType : Str
  iconType : Str
  handler : Handler
  url : Str
  isAbsoluteUrl : Bool
deriving Repr, DecidableEq

/-- `extract_item_info(file_path, props)`: `none` models the `except`
    branch returning `None` (reached when `int(size_elem.text)` raises
    `ValueError`, or when `clean_nextcloud_path` blows the recursion
    limit). -/
def extractItemInfo (fuel : Nat) (connUrl : Str) (filePath : Str) (props : XML) :
    Option Item :=
  let baseUrl := pyRstrip connUrl "/".data
  match cleanNextcloudPath fuel connUrl filePath with
  | none => none
  | some cleanPath =>
    let isAbsoluteUrl := pyStartswith filePath "http".data
    let name :=
      if pyEndswith filePath "/".data then
        (pySplit "/".data (pyRstrip filePath "/".data)).getLast?.getD []
      else (pySplit "/".data filePath).getLast?.getD []
    let resourcetype := findDesc "{DAV:}resourcetype".data props
    let isFolder :=
      match resourcetype with
      | some rt => (findDesc "{DAV:}collection".data rt).isSome
      | none => false
    let sizeOpt : Option Int :=
      match findDesc "{DAV:}getcontentlength".data props with
      | some el =>
        match el.text with
        | some t => if t ≠ [] then pyInt t else some 0
        | none => some 0
      | none => some 0
    match sizeOpt with
    | none => none
    | some size =>
      let date : Option Str :=
        match findDesc "{DAV:}getlastmodified".data props with
        | some el => el.text
        | none => some []
      let contentType : Option Str :=
        match findDesc "{DAV:}getcontenttype".data props with
        | some el => el.text
        | none => some []
      let fileExtension := if isFolder then [] else pyLower (pySuffix name)
      let fileInfo := if isFolder then folderFileInfo
                      else fileHandlersGet fileExtension
      let itemUrl :=
        if isAbsoluteUrl then
          if pyStartswith filePath baseUrl then baseUrl ++ cleanPath else filePath
        else baseUrl ++ cleanPath
      some { name := name
           , path := cleanPath
           , fullPath := filePath
           , isFolder := isFolder
           , size := size
           , date := date
           , contentType := contentType
           , extension := fileExtension
           , fileType := fileInfo.ftype
           , iconType := fileInfo.icon
           , handler := fileInfo.handler
           , url := itemUrl
           , isAbsoluteUrl := isAbsoluteUrl }

/-- The body of `parse_webdav_response`'s `for response in ...` loop for
    one `{DAV:}response` element.  `.error ()` models an exception
    escaping the loop (an href element whose `.text` is `None` makes
    `unquote` raise `TypeError`; `clean_nextcloud_path` can blow the
    recursion limit — neither is caught inside `parse_webdav_response`),
    `.ok none` a skipped entry, `.ok (some item)` an appended item. -/
def parseEntry (fuel : Nat) (connUrl currentPath : Str) (resp : XML) :
    Except Unit (Option Item) :=
  let href := findDesc "{DAV:}href".data resp
  let propstat := findDesc "{DAV:}propstat".data resp
  match href, propstat with
  | some hrefEl, some ps =>
    (match hrefEl.text with
     | none => .error ()
     | some htext =>
       let rawPath := pyUnquote htext
       match cleanNextcloudPath fuel connUrl rawPath with
       | none => .error ()
       | some path =>
         let relativePath := path
         let currentPathNoSlash := pyRstrip currentPath "/".data
         let relativePathNoSlash := pyRstrip relativePath "/".data
         if relativePathNoSlash = currentPathNoSlash ∨ path = currentPath then
           .ok none
         else
           match findDesc "{DAV:}prop".data ps with
           | none => .ok none
           | some props =>
             match extractItemInfo fuel connUrl rawPath props with
             | none => .ok none
             | some item =>
               -- `item['clean_path'] = path` re-stores the value
               -- `extract_item_info` already computed for the same input.
               .ok (some { item with path := path }))
  | _, _ => .ok none

/-- `parse_webdav_response(xml_content)` on the parsed tree: `none`
    models an exception reaching the caller. -/
def parseWebdavResponse (fuel : Nat) (connUrl currentPath : Str) (root : XML) :
    Option (List Item) :=
  (findallDesc "{DAV:}response".data root).foldlM
    (fun acc resp =>
      match parseEntry fuel connUrl currentPath resp with
      | .error _ => none
      | .ok none => some acc
      | .ok (some item) => some (acc ++ [item]))
    []

/-- `r'/remote\.php/dav/files/[^/]+/(.*)'` (the `re.findall` pattern in
    `refresh_webdav_content`). -/
def remoteFilesFindallPat : RE :=
  .cat (reLits "/remote.php/dav/files/".data)
    (.cat notSlashPlus (.cat (.lit '/') (.grp 1 dotStar)))

/-- The `is_nextcloud` indicator test of `refresh_webdav_content`. -/
def refreshIsNextcloud (baseUrl : Str) : Bool :=
  [ "/remote.php/dav/".data, "/index.php/dav/".data
  , "/owncloud/remote.php/".data, "/public.php/webdav".data
  ].any fun ind => pyIn ind (pyLower baseUrl)

/-- The URL `refresh_webdav_content` issues its PROPFIND against, in
    `current_mode == "webdav"` (the `nextcloud_share`-only blocks are
    mode-gated off).  `none` models an exception raised before the
    request: a `RecursionError` out of `clean_nextcloud_path`, or the
    `raise Exception("URL invalide après sanitization")` when the
    sanitized url is `None` or empty. -/
def refreshFolderUrl (fuel : Nat) (connUrl currentPath : Str) : Option Str :=
  let baseUrl := pyRstrip connUrl "/".data
  let isNextcloud := refreshIsNextcloud baseUrl
  let rawPath := currentPath
  let folderUrlOpt : Option Str :=
    if isNextcloud then
      if currentPath = "/".data then some baseUrl
      else
        match cleanNextcloudPath fuel connUrl currentPath with
        | none => none
        | some cleanPath =>
          let pathParts := pySplit "/".data cleanPath
          let baseParts := pySplit "/".data baseUrl
          let duplicateSegments :=
            pathParts.filter fun p => p ≠ [] ∧ baseParts.contains p
          let cleanPath :=
            if duplicateSegments ≠ [] ∧ duplicateSegments.any
                (fun s => s ∈ [ "remote.php".data, "index.php".data
                              , "owncloud".data, "mdrive".data ]) then
              if duplicateSegments.contains "remote.php".data then
                if pyIn "/remote.php/".data baseUrl then
                  let ms := reFindall remoteFilesFindallPat cleanPath
                  if ms ≠ [] then '/' :: (ms.getLast?.getD [])
                  else cleanPath
                else cleanPath
              else cleanPath
            else cleanPath
          some (baseUrl ++ cleanPath)
    else
      some (baseUrl ++ (if pyStartswith rawPath "/".data then rawPath
                        else '/' :: rawPath))
  match folderUrlOpt with
  | none => none
  | some folderUrl =>
    let folderUrl :=
      if pyIn pubDup folderUrl then pyReplace pubDup pubSingle folderUrl
      else folderUrl
    match sanitizeWebdavUrl folderUrl with
    | none => none
    | some fUrl =>
      if fUrl = [] then none
      else
        let fUrl :=
          if ¬ pyStartswith fUrl "http".data
          then "https://".data ++ pyLstrip fUrl "/".data else fUrl
        let fUrl :=
          if ¬ pyIn "://".data fUrl
          then pyReplace ":/".data "://".data fUrl else fUrl
        some fUrl

/-- An HTTP request as issued through the `requests` session. -/
structure Request where
  verb : Str
  url : Str
  depth : Option Str
deriving Repr, DecidableEq

/-- The requests a call to `refresh_webdav_content` issues in `webdav`
    mode: the single PROPFIND with `Depth: 1`, or nothing when an
    exception fires first. -/
def refreshWebdavRequests (fuel : Nat) (connUrl currentPath : Str) : List Request :=
  match refreshFolderUrl fuel connUrl currentPath with
  | none => []
  | some u => [⟨"PROPFIND".data, u, some "1".data⟩]

/-!
## Download paths

The network and filesystem are abstracted by an environment: the status
code or connection failure of each successive request a call issues, and
whether writing the local file fails.  A modelled function returns the
requests it issued together with the UI effects its `try/except/finally`
structure produces.
-/

/-- Environment a download interacts with.  `status n` / `raises n` apply
    to the `n`-th request the call issues (counting from 0). -/
structure ReqEnv where
  status : Nat → Nat
  raises : Nat → Bool
  writeFails : Bool
  layerValid : Bool

/-- A modal message box shown via `QMessageBox`. -/
inductive DialogBox where
  | critical (title : Str)
  | information (title : Str)
  | warning (title : Str)
deriving Repr, DecidableEq

/-- Observable result of one of the download functions: the requests it
    issued, the dialogs it showed, the final status label and progress-bar
    visibility, whether an exception escaped to the caller, and the
    Python return value (`none` for `None`). -/
structure DownloadResult where
  requests : List Request
  dialogs : List DialogBox
  statusLabel : Str
  progressVisible : Bool
  raised : Bool
  returnValue : Option Bool
deriving Repr

/-- Error outcome of `download_file` (except-branch then finally). -/
def dfError (reqs : List Request) : DownloadResult :=
  { requests := reqs
  , dialogs := [.critical "Erreur téléchargement".data]
  , statusLabel := "❌ Erreur téléchargement: ".data
  , progressVisible := false
  , raised := false
  , returnValue := none }

/-- `download_file(file_data, save_path)`.  The one GET uses the
    sanitized url; a `None` url out of `sanitize_webdav_url` makes
    `session.get` raise before anything is sent. -/
def downloadFile (env : ReqEnv) (connUrl currentPath fileName fileUrl : Str) :
    DownloadResult :=
  let cleanUrl :=
    if isNextcloudSharedLink connUrl || isCraigNextcloudServer connUrl then
      buildDownloadUrl connUrl currentPath fileName
    else cleanNextcloudUrl connUrl fileUrl
  match sanitizeWebdavUrl cleanUrl with
  | none => dfError []
  | some u =>
    let req : Request := ⟨"GET".data, u, none⟩
    if env.raises 0 then dfError [req]
    else if env.status 0 ≠ 200 then dfError [req]
    else if env.writeFails then dfError [req]
    else
      { requests := [req]
      , dialogs := [.information "Téléchargement terminé".data]
      , statusLabel := "✅ Téléchargement terminé: ".data ++ fileName
      , progressVisible := false
      , raised := false
      , returnValue := none }

/-- Error outcome of `load_raster_file_with_download` /
    `load_craig_raster` (except-branch: hide progress, show dialog, set
    status, `return False`). -/
def lrError (reqs : List Request) : DownloadResult :=
  { requests := reqs
  , dialogs := [.critical "Erreur".data]
  , statusLabel := "❌ Erreur: ".data
  , progressVisible := false
  , raised := false
  , returnValue := some false }

/-- Success outcome of the raster loaders (`return True`). -/
def lrSuccess (reqs : List Request) (statusLabel : Str) : DownloadResult :=
  { requests := reqs
  , dialogs := []
  , statusLabel := statusLabel
  , progressVisible := false
  , raised := false
  , returnValue := some true }

/-- The shared download/retry tail of `load_raster_file_with_download`
    and `load_craig_raster`: one GET, a single retry after a fixed delay
    when the first status is 429, a raised exception (caught by the
    enclosing `try`) otherwise or when the retry still fails; then the
    chunked write and the QGIS layer load. -/
def rasterDownloadTail (env : ReqEnv) (req : Request) (okLabel : Str) :
    DownloadResult :=
  if env.raises 0 then lrError [req]
  else if env.status 0 ≠ 200 then
    if env.status 0 = 429 then
      -- time.sleep(5); second GET to the same url
      if env.raises 1 then lrError [req, req]
      else if env.status 1 ≠ 200 then lrError [req, req]
      else
        if env.writeFails then lrError [req, req]
        else if env.layerValid then lrSuccess [req, req] okLabel
        else lrError [req, req]
    else lrError [req]
  else
    if env.writeFails then lrError [req]
    else if env.layerValid then lrSuccess [req] okLabel
    else lrError [req]

/-- `load_raster_file_with_download(file_data)`. -/
def loadRasterFileWithDownload (env : ReqEnv) (connUrl currentPath fileName : Str) :
    DownloadResult :=
  let downloadUrl := buildDownloadUrl connUrl currentPath fileName
  rasterDownloadTail env ⟨"GET".data, downloadUrl, none⟩
    ("✅ Raster chargé: ".data ++ fileName)

/-- `while pattern in s: s = s.replace(pattern, '')` (used by
    `load_craig_raster`; each pass shortens the string, so `s.length`
    iterations reach the fixed point). -/
def removeAllOccur (pattern : Str) : Nat → Str → Str
  | 0, s => s
  | fuel + 1, s =>
    if pyIn pattern s then removeAllOccur pattern fuel (pyReplace pattern [] s)
    else s

/-- The `patterns_to_remove` list of `load_craig_raster`. -/
def craigPatternsToRemove : List Str :=
  [ "public.php/webdav/".data, "/public.php/webdav/".data
  , "public.php/webdav".data, "/public.php/webdav".data ]

/-- The `clean_path` computed by `load_craig_raster` before the
    domain/token extraction. -/
def loadCraigCleanPath (currentPath fileName : Str) : Str :=
  let folderPath := if currentPath ≠ "/".data then currentPath else []
  let cleanPath := folderPath
  let cleanPath :=
    craigPatternsToRemove.foldl
      (fun cp pat => removeAllOccur pat cp.length cp) cleanPath
  let cleanPath :=
    if ¬ pyStartswith cleanPath "/".data then '/' :: cleanPath else cleanPath
  let cleanPath :=
    if pyEndswith cleanPath ('/' :: fileName) then
      pySliceToNeg cleanPath (fileName.length + 1)
    else if pyEndswith cleanPath fileName then
      pySliceToNeg cleanPath fileName.length
    else cleanPath
  let cleanPath :=
    if pyEndswith cleanPath "/".data then pySliceToNeg cleanPath 1 else cleanPath
  if pyIn "public.php".data cleanPath ∨ pyIn "webdav".data cleanPath then
    let parts := pySplit "/ortho/".data cleanPath
    if parts.length > 1 then "/ortho/".data ++ parts.getD 1 []
    else cleanPath
  else cleanPath

/-- The `path_param` of `load_craig_raster` (last-resort cleanups applied
    to `clean_path`). -/
def loadCraigPathParam (cleanPath fileName : Str) : Str :=
  let pathParam := cleanPath
  let pathParam :=
    if pyEndswith pathParam ('/' :: fileName) then
      pySliceToNeg pathParam (fileName.length + 1)
    else pathParam
  let pathParam :=
    if pyIn "public.php".data pathParam then
      let orthoPath :=
        [ "2016".data, "2017".data, "2018".data, "2019".data, "2020".data
        , "2021".data, "2022".data, "2023".data, "2024".data ].findSome?
          fun year =>
            if pyIn year pathParam then
              let parts := pySplit year pathParam
              if parts.length > 1 then
                some ("/ortho/PCRS_5cm/".data ++ year ++ parts.getD 1 [])
              else none
            else none
      match orthoPath with
      | some p => p
      | none => pathParam
    else pathParam
  let pathParam :=
    if pyEndswith pathParam ('/' :: fileName) then
      pySliceToNeg pathParam (fileName.length + 1)
    else if pyEndswith pathParam fileName then
      pySliceToNeg pathParam fileName.length
    else pathParam
  pathParam

/-- `load_craig_raster(file_data)`.  When `'/s/'` is missing from the
    connection url, `base_url.split('/s/')[1]` raises `IndexError` before
    any request; the enclosing `try` turns that into the error dialog. -/
def loadCraigRaster (env : ReqEnv) (connUrl currentPath fileName : Str) :
    DownloadResult :=
  let baseUrl := pyRstrip connUrl "/".data
  if (pySplit "/s/".data baseUrl).length < 2 then lrError []
  else
    let domain := (pySplit "/s/".data baseUrl).headI
    let token := (pySplit "/".data ((pySplit "/s/".data baseUrl).getD 1 [])).headI
    let cleanPath := loadCraigCleanPath currentPath fileName
    let pathParam := loadCraigPathParam cleanPath fileName
    let downloadUrl :=
      domain ++ "/s/".data ++ token ++ "/download?path=".data
      ++ pyQuote pathParam ++ "&files=".data ++ fileName
    rasterDownloadTail env ⟨"GET".data, downloadUrl, none⟩
      ("✅ Raster CRAIG chargé: ".data ++ fileName)

end WebDAV

/-!
## Shared lemmas about the string helpers
-/

namespace PyStr

theorem isPre_append (a b : Str) : isPre a (a ++ b) = true := by
  induction a with
  | nil => rfl
  | cons c cs ih => simp [isPre, ih]

theorem isPre_iff (p s : Str) : isPre p s = true ↔ ∃ t, s = p ++ t := by
  induction p generalizing s with
  | nil => simp [isPre]
  | cons c cs ih =>
    cases s with
    | nil => simp [isPre]
    | cons d ds =>
      simp only [isPre, Bool.and_eq_true, beq_iff_eq, ih]
      constructor
      · rintro ⟨rfl, t, rfl⟩
        exact ⟨t, rfl⟩
      · rintro ⟨t, h⟩
        rw [List.cons_append] at h
        injection h with h1 h2
        exact ⟨h1.symm, t, h2⟩

theorem isPre_length_le (p s : Str) (h : isPre p s = true) : p.length ≤ s.length := by
  rcases (isPre_iff p s).1 h with ⟨t, rfl⟩
  simp

/-- `isPre` only looks at the first `p.length` characters. -/
theorem isPre_append_of_le (p x y z : Str) (hl : p.length ≤ x.length) :
    isPre p (x ++ y) = isPre p (x ++ z) := by
  induction p generalizing x with
  | nil => simp [isPre]
  | cons c cs ih =>
    cases x with
    | nil => simp at hl
    | cons d ds =>
      simp only [List.cons_append, isPre]
      simp only [List.length_cons, Nat.succ_le_succ_iff] at hl
      exact congrArg (fun b => (c == d && b)) (ih ds hl)

theorem pyIn_nil (p : Str) (hp : p ≠ []) : pyIn p [] = false := by
  cases p with
  | nil => exact absurd rfl hp
  | cons c cs => simp [pyIn, isPre]

theorem pyIn_of_isPre (p s : Str) (h : isPre p s = true) : pyIn p s = true := by
  cases s with
  | nil => cases p with
    | nil => simp [pyIn, isPre]
    | cons c cs => simp [isPre] at h
  | cons d ds => simp [pyIn, h]

theorem pySplit1_nil_of_cons (d : Char) (ds : Str) :
    pySplit1 (d :: ds) [] = none := by
  simp [pySplit1, isPre]

theorem pySplit1_append (d : Char) (ds : Str) :
    ∀ s a b, pySplit1 (d :: ds) s = some (a, b) → s = a ++ (d :: ds) ++ b := by
  intro s
  induction s with
  | nil =>
    intro a b h
    rw [pySplit1_nil_of_cons] at h
    exact absurd h (by simp)
  | cons c cs ih =>
    intro a b h
    by_cases hp : isPre (d :: ds) (c :: cs)
    · simp only [pySplit1, if_pos hp] at h
      injection h with h'
      injection h' with h1 h2
      subst h1
      rcases (isPre_iff (d :: ds) (c :: cs)).1 hp with ⟨t, ht⟩
      rw [ht] at h2 ⊢
      rw [show List.drop (d :: ds).length ((d :: ds) ++ t) = t from
        List.drop_left (d :: ds) t] at h2
      simp [h2]
    · simp only [pySplit1, if_neg hp] at h
      rcases hsplit : pySplit1 (d :: ds) cs with _ | ⟨a', b'⟩ <;> rw [hsplit] at h
      · exact absurd h (by simp)
      · simp only [Option.some.injEq, Prod.mk.injEq] at h
        rcases h with ⟨ha, hb⟩
        subst hb
        rw [← ha]
        have := ih a' b' hsplit
        simp [this]

/-- Re-splitting the rebuilt string with a different tail finds the same
    first occurrence. -/
theorem pySplit1_rebuild (d : Char) (ds : Str) :
    ∀ s a b, pySplit1 (d :: ds) s = some (a, b) →
    ∀ r, pySplit1 (d :: ds) (a ++ (d :: ds) ++ r) = some (a, r) := by
  intro s
  induction s with
  | nil =>
    intro a b h
    rw [pySplit1_nil_of_cons] at h
    exact absurd h (by simp)
  | cons c cs ih =>
    intro a b h r
    by_cases hp : isPre (d :: ds) (c :: cs)
    · simp only [pySplit1, if_pos hp] at h
      injection h with h'
      injection h' with h1 _
      subst h1
      have hpre : isPre (d :: ds) ((d :: ds) ++ r) = true := isPre_append _ _
      show pySplit1 (d :: ds) ([] ++ (d :: ds) ++ r) = some ([], r)
      rw [List.nil_append]
      rw [show (d :: ds) ++ r = d :: (ds ++ r) from rfl]
      rw [show pySplit1 (d :: ds) (d :: (ds ++ r)) =
          if isPre (d :: ds) (d :: (ds ++ r)) then
            some ([], (d :: (ds ++ r)).drop (d :: ds).length)
          else match pySplit1 (d :: ds) (ds ++ r) with
               | some (a, b) => some (d :: a, b)
               | none => none from rfl]
      rw [if_pos (by simpa using hpre)]
      rw [show List.drop (d :: ds).length (d :: (ds ++ r)) =
          List.drop ds.length (ds ++ r) from rfl]
      rw [List.drop_left ds r]
    · simp only [pySplit1, if_neg hp] at h
      rcases hsplit : pySplit1 (d :: ds) cs with _ | ⟨a', b'⟩ <;> rw [hsplit] at h
      · exact absurd h (by simp)
      · simp only [Option.some.injEq, Prod.mk.injEq] at h
        rcases h with ⟨ha, hb⟩
        subst hb
        subst ha
        have hcs : cs = a' ++ (d :: ds) ++ b' := pySplit1_append d ds cs a' b' hsplit
        have hnot : isPre (d :: ds) ((c :: (a' ++ (d :: ds))) ++ r) = false := by
          have heq := isPre_append_of_le (d :: ds) (c :: (a' ++ (d :: ds))) r b'
            (by simp; omega)
          rw [heq]
          have : (c :: (a' ++ (d :: ds))) ++ b' = c :: cs := by
            rw [hcs]; simp
          rw [this]
          exact Bool.eq_false_iff.2 (fun hc => hp hc)
        have htail : pySplit1 (d :: ds) (a' ++ (d :: ds) ++ r) = some (a', r) :=
          ih a' b' hsplit r
        show pySplit1 (d :: ds) ((c :: a') ++ (d :: ds) ++ r) = some (c :: a', r)
        rw [show (c :: a') ++ (d :: ds) ++ r = c :: (a' ++ (d :: ds) ++ r) by simp]
        rw [show pySplit1 (d :: ds) (c :: (a' ++ (d :: ds) ++ r)) =
            if isPre (d :: ds) (c :: (a' ++ (d :: ds) ++ r)) then
              some ([], (c :: (a' ++ (d :: ds) ++ r)).drop (d :: ds).length)
            else match pySplit1 (d :: ds) (a' ++ (d :: ds) ++ r) with
                 | some (a, b) => some (c :: a, b)
                 | none => none from rfl]
        rw [if_neg (by simp only [show c :: (a' ++ (d :: ds) ++ r) =
              (c :: (a' ++ (d :: ds))) ++ r by simp, hnot]; simp)]
        rw [htail]

end PyStr

namespace PyStr

theorem pyReplaceAux_nil (p : Char) (ps rep : Str) :
    ∀ fuel, pyReplaceAux p ps rep fuel [] = [] := by
  intro fuel
  cases fuel with
  | zero => rfl
  | succ n => simp [pyReplaceAux, isPre]

/-- `pyReplaceAux` ignores the exact amount of fuel as long as it covers
    the string. -/
theorem pyReplaceAux_fuel (p : Char) (ps rep : Str) :
    ∀ fuel fuel' s, s.length ≤ fuel → s.length ≤ fuel' →
      pyReplaceAux p ps rep fuel s = pyReplaceAux p ps rep fuel' s := by
  intro fuel
  induction fuel with
  | zero =>
    intro fuel' s hs _
    have : s = [] := List.length_eq_zero.1 (Nat.le_zero.1 hs)
    subst this
    rw [pyReplaceAux_nil, pyReplaceAux_nil]
  | succ n ih =>
    intro fuel' s hs hs'
    cases s with
    | nil => rw [pyReplaceAux_nil, pyReplaceAux_nil]
    | cons c cs =>
      cases fuel' with
      | zero => simp at hs'
      | succ m =>
        by_cases hp : isPre (p :: ps) (c :: cs)
        · simp only [pyReplaceAux, if_pos hp]
          have hd : ((c :: cs).drop (ps.length + 1)).length ≤ n := by
            simp only [List.length_drop, List.length_cons] at *
            omega
          have hd' : ((c :: cs).drop (ps.length + 1)).length ≤ m := by
            simp only [List.length_drop, List.length_cons] at *
            omega
          rw [ih m _ hd hd']
        · simp only [pyReplaceAux, if_neg hp]
          have hc : cs.length ≤ n := by simp at hs; omega
          have hc' : cs.length ≤ m := by simp at hs'; omega
          rw [ih m cs hc hc']

/-- Unfolding `pyReplace` at a match. -/
theorem pyReplace_pos (p : Char) (ps rep s : Str)
    (h : isPre (p :: ps) s = true) :
    pyReplace (p :: ps) rep s =
      rep ++ pyReplace (p :: ps) rep (s.drop (ps.length + 1)) := by
  cases s with
  | nil => simp [isPre] at h
  | cons c cs =>
    show pyReplaceAux p ps rep (cs.length + 1) (c :: cs) =
      rep ++ pyReplaceAux p ps rep ((c :: cs).drop (ps.length + 1)).length
        ((c :: cs).drop (ps.length + 1))
    simp only [pyReplaceAux, if_pos h]
    rw [pyReplaceAux_fuel p ps rep cs.length _ _
      (by simp only [List.length_drop, List.length_cons]; omega) le_rfl]

/-- Unfolding `pyReplace` at a non-match. -/
theorem pyReplace_cons_neg (p : Char) (ps rep : Str) (c : Char) (cs : Str)
    (h : isPre (p :: ps) (c :: cs) = false) :
    pyReplace (p :: ps) rep (c :: cs) = c :: pyReplace (p :: ps) rep cs := by
  show pyReplaceAux p ps rep (cs.length + 1) (c :: cs) =
    c :: pyReplaceAux p ps rep cs.length cs
  simp only [pyReplaceAux]
  rw [if_neg (by simp [h])]

/-- Replacing `//` by `/` never lengthens a string. -/
theorem pyReplace_dslash_length_le (s : Str) :
    (pyReplace "//".data "/".data s).length ≤ s.length := by
  suffices H : ∀ n (s : Str), s.length ≤ n →
      (pyReplace "//".data "/".data s).length ≤ s.length from
    H s.length s le_rfl
  intro n
  induction n with
  | zero =>
    intro s hs
    have : s = [] := List.length_eq_zero.1 (Nat.le_zero.1 hs)
    subst this
    rw [show pyReplace "//".data "/".data [] = [] from rfl]
  | succ n ih =>
    intro s hs
    by_cases hp : isPre "//".data s
    · rcases (isPre_iff _ s).1 hp with ⟨t, rfl⟩
      rw [show pyReplace "//".data "/".data ("//".data ++ t) =
          "/".data ++ pyReplace "//".data "/".data t from
        pyReplace_pos '/' ['/'] "/".data ("//".data ++ t) hp]
      have hlt : t.length ≤ n := by simp at hs; omega
      have := ih t hlt
      simp at this ⊢
      omega
    · cases s with
      | nil => rw [show pyReplace "//".data "/".data [] = [] from rfl]
      | cons c cs =>
        rw [pyReplace_cons_neg '/' ['/'] "/".data c cs (Bool.eq_false_iff.2 hp)]
        have := ih cs (by simp at hs; omega)
        simpa using this

/-- Replacing `//` by `/` strictly shortens a string containing `//`. -/
theorem pyReplace_dslash_length_lt (s : Str) (hin : pyIn "//".data s = true) :
    (pyReplace "//".data "/".data s).length < s.length := by
  suffices H : ∀ n (s : Str), s.length ≤ n → pyIn "//".data s = true →
      (pyReplace "//".data "/".data s).length < s.length from
    H s.length s le_rfl hin
  intro n
  induction n with
  | zero =>
    intro s hs h
    have : s = [] := List.length_eq_zero.1 (Nat.le_zero.1 hs)
    subst this
    simp [pyIn, isPre] at h
  | succ n ih =>
    intro s hs h
    by_cases hp : isPre "//".data s
    · rcases (isPre_iff _ s).1 hp with ⟨t, rfl⟩
      rw [show pyReplace "//".data "/".data ("//".data ++ t) =
          "/".data ++ pyReplace "//".data "/".data t from
        pyReplace_pos '/' ['/'] "/".data ("//".data ++ t) hp]
      have := pyReplace_dslash_length_le t
      simp at this ⊢
      omega
    · cases s with
      | nil => simp [pyIn, isPre] at h
      | cons c cs =>
        rw [pyReplace_cons_neg '/' ['/'] "/".data c cs (Bool.eq_false_iff.2 hp)]
        have hin' : pyIn "//".data cs = true := by
          have hh : pyIn "//".data (c :: cs) =
              (isPre "//".data (c :: cs) || pyIn "//".data cs) := rfl
          rw [hh] at h
          simpa [hp] using h
        have := ih cs (by simp at hs; omega) hin'
        simpa using this

end PyStr

namespace WebDAV

/-- With fuel at least the string's length, the collapse loop reaches its
    fixed point: the result has no `//`. -/
theorem collapseSlashes_no_dslash :
    ∀ n s, s.length ≤ n → pyIn "//".data (collapseSlashes n s) = false := by
  intro n
  induction n with
  | zero =>
    intro s hs
    have : s = [] := List.length_eq_zero.1 (Nat.le_zero.1 hs)
    subst this
    simpa [collapseSlashes] using pyIn_nil "//".data (by simp)
  | succ n ih =>
    intro s hs
    by_cases hin : pyIn "//".data s
    · rw [show collapseSlashes (n + 1) s =
          collapseSlashes n (pyReplace "//".data "/".data s) by
        simp [collapseSlashes, hin]]
      exact ih _ (by
        have := pyReplace_dslash_length_lt s hin
        omega)
    · rw [show collapseSlashes (n + 1) s = s by simp [collapseSlashes, hin]]
      exact Bool.eq_false_iff.2 hin

/-- Without `//` the collapse loop is the identity (any fuel). -/
theorem collapseSlashes_id (n : Nat) (s : Str) (h : pyIn "//".data s = false) :
    collapseSlashes n s = s := by
  cases n with
  | zero => rfl
  | succ n => simp [collapseSlashes, h]

end WebDAV

namespace PyStr

theorem findSome?_some {α β : Type} (f : α → Option β) :
    ∀ (l : List α) b, l.findSome? f = some b → ∃ a ∈ l, f a = some b := by
  intro l
  induction l with
  | nil => intro b h; simp [List.findSome?] at h
  | cons x xs ih =>
    intro b h
    rw [List.findSome?] at h
    rcases hx : f x with _ | y <;> rw [hx] at h
    · rcases ih b h with ⟨a, ha, hfa⟩
      exact ⟨a, by simp [ha], hfa⟩
    · exact ⟨x, by simp, hx.trans h⟩

theorem dropWhile_head_not {α : Type} (p : α → Bool) :
    ∀ (l : List α) c t, l.dropWhile p = c :: t → p c = false := by
  intro l
  induction l with
  | nil => intro c t h; simp at h
  | cons x xs ih =>
    intro c t h
    by_cases hp : p x
    · rw [List.dropWhile_cons_of_pos hp] at h
      exact ih c t h
    · rw [List.dropWhile_cons_of_neg hp] at h
      injection h with h1 _
      subst h1
      exact Bool.eq_false_iff.2 hp

/-- `pyRstrip` yields a prefix of the input. -/
theorem pyRstrip_isPrefix (s cs : Str) : (pyRstrip s cs).IsPrefix s := by
  unfold pyRstrip
  have h := List.dropWhile_suffix (l := s.reverse) (p := fun c => c ∈ cs)
  rcases h with ⟨t, ht⟩
  exact ⟨t.reverse, by
    have := congrArg List.reverse ht
    simpa using this⟩

/-- A non-empty `pyRstrip` result does not end with a stripped
    character. -/
theorem pyRstrip_getLast?_not_mem (s cs : Str) (c : Char)
    (h : (pyRstrip s cs).getLast? = some c) : c ∉ cs := by
  unfold pyRstrip at h
  rcases hd : (s.reverse).dropWhile (fun c => c ∈ cs) with _ | ⟨d, t⟩
  · rw [hd] at h; simp at h
  · rw [hd] at h
    rw [List.getLast?_reverse] at h
    simp only [List.head?_cons, Option.some.injEq] at h
    have := dropWhile_head_not (fun x => decide (x ∈ cs)) s.reverse d t hd
    rw [← h]
    simpa using this

theorem pyRstrip_eq_nil_iff (s cs : Str) :
    pyRstrip s cs = [] ↔ ∀ c ∈ s, c ∈ cs := by
  unfold pyRstrip
  rw [List.reverse_eq_nil_iff, List.dropWhile_eq_nil_iff]
  constructor
  · intro h c hc
    simpa using h c (by simpa using hc)
  · intro h c hc
    simpa using h c (by simpa using hc)

/-- A non-empty `pyRstrip` result keeps the head of the input. -/
theorem pyRstrip_head (s cs : Str) (h : pyRstrip s cs ≠ []) :
    (pyRstrip s cs).head? = s.head? := by
  rcases pyRstrip_isPrefix s cs with ⟨t, ht⟩
  rcases hr : pyRstrip s cs with _ | ⟨c, r⟩
  · exact absurd hr h
  · rw [hr] at ht
    rw [← ht]
    simp

end PyStr

namespace WebDAV

/-- Any result of `cleanCase2` starts with `/`. -/
theorem cleanCase2_starts (path r : Str) (h : cleanCase2 path = some r) :
    pyStartswith r "/".data = true := by
  unfold cleanCase2 at h
  rcases hf : nextcloudPatterns.findSome? (fun pat => reMatch pat path)
    with _ | cp <;> rw [hf] at h
  · exact absurd h (by simp)
  · simp only [Option.some.injEq] at h
    subst h
    by_cases hs : pyStartswith ((reGroup cp 3).getD []) "/".data = true
    · rw [if_pos hs]; exact hs
    · rw [if_neg hs]; simp [pyStartswith, isPre]

/-- Any result of `cleanCase3` starts with `/`. -/
theorem cleanCase3_starts (path r : Str) (h : cleanCase3 path = some r) :
    pyStartswith r "/".data = true := by
  unfold cleanCase3 at h
  rcases findSome?_some _ _ _ h with ⟨seg, _, hseg⟩
  by_cases h1 : pyIn seg path
  · simp only [h1, if_true] at hseg
    by_cases h2 : (pySplit seg path).length > 2
    · simp only [h2, if_true] at hseg
      simp only [Option.some.injEq] at hseg
      subst hseg
      by_cases hs : pyStartswith (seg ++ (pySplit seg path).getLast!) "/".data = true
      · rw [if_pos hs]; exact hs
      · rw [if_neg hs]; simp [pyStartswith, isPre]
    · simp [h2] at hseg
  · simp [h1] at hseg

/-- Every value produced by the non-recursive cases of
    `clean_nextcloud_path` starts with `/`. -/
theorem cleanCases234_starts (path : Str) :
    pyStartswith (cleanCases234 path) "/".data = true := by
  unfold cleanCases234
  rcases h2 : cleanCase2 path with _ | r
  · rcases h3 : cleanCase3 path with _ | r
    · by_cases hs : pyStartswith path "/".data = true
      · rw [if_pos hs]; exact hs
      · rw [if_neg hs]; simp [pyStartswith, isPre]
    · exact cleanCase3_starts path r h3
  · exact cleanCase2_starts path r h2

/-- Every successful result of `clean_nextcloud_path` starts with `/`. -/
theorem cleanNextcloudPath_starts :
    ∀ fuel url path r, cleanNextcloudPath fuel url path = some r →
      pyStartswith r "/".data = true := by
  intro fuel
  induction fuel with
  | zero => intro url path r h; simp [cleanNextcloudPath] at h
  | succ n ih =>
    intro url path r h
    rw [cleanNextcloudPath] at h
    split at h
    · simp only [Option.some.injEq] at h
      subst h
      decide
    · split at h
      · split at h
        · simp only [Option.some.injEq] at h
          subst h
          decide
        · exact ih url _ r h
      · simp only [Option.some.injEq] at h
        subst h
        exact cleanCases234_starts path

end WebDAV

namespace PyStr

/-- A string whose last character is not stripped is left unchanged. -/
theorem pyRstrip_of_getLast?_not_mem (s cs : Str) (c : Char)
    (hlast : s.getLast? = some c) (hc : c ∉ cs) : pyRstrip s cs = s := by
  unfold pyRstrip
  rw [← List.head?_reverse] at hlast
  rcases hrev : s.reverse with _ | ⟨d, t⟩
  · rw [hrev] at hlast; simp at hlast
  · rw [hrev] at hlast
    simp only [List.head?_cons, Option.some.injEq] at hlast
    subst hlast
    rw [List.dropWhile_cons_of_neg (by simpa using hc)]
    rw [← hrev]
    simp

theorem isPre_singleton (b : Str) (c : Char) (h : isPre b [c] = true) :
    b = [] ∨ b = [c] := by
  cases b with
  | nil => exact Or.inl rfl
  | cons d ds =>
    cases ds with
    | nil =>
      simp only [isPre, Bool.and_eq_true, beq_iff_eq] at h
      exact Or.inr (by simp [h.1])
    | cons e es => simp [isPre] at h

end PyStr

namespace WebDAV

/-- Unfolding `cleanNextcloudPath` when case 1 does not apply. -/
theorem cleanNextcloudPath_succ_notpre (fuel : Nat) (url path : Str)
    (hnil : path ≠ [])
    (hpre : pyStartswith path (pyRstrip url "/".data) = false) :
    cleanNextcloudPath (fuel + 1) url path = some (cleanCases234 path) := by
  rw [cleanNextcloudPath]
  rw [if_neg hnil, if_neg (by simp [hpre])]

/-- With `url.rstrip('/')` non-empty, fuel `path.length + 2` always
    suffices for `clean_nextcloud_path` (the self-recursion terminates). -/
theorem cleanNextcloudPath_isSome (url : Str)
    (hu : pyRstrip url "/".data ≠ []) :
    ∀ n path fuel, path.length ≤ n → path.length + 2 ≤ fuel →
      (cleanNextcloudPath fuel url path).isSome := by
  intro n
  induction n using Nat.strong_induction_on with
  | _ n ih =>
    intro path fuel hn hfuel
    rcases fuel with _ | fuel
    · omega
    rw [cleanNextcloudPath]
    by_cases hnil : path = []
    · simp [hnil]
    rw [if_neg hnil]
    have hplen : 1 ≤ path.length := by
      cases path with
      | nil => exact absurd rfl hnil
      | cons a as => simp
    by_cases hpre : pyStartswith path (pyRstrip url "/".data) = true
    · rw [if_pos hpre]
      by_cases hrel : path.drop (pyRstrip url "/".data).length = []
      · simp [hrel]
      rw [if_neg hrel]
      have hple : (pyRstrip url "/".data).length ≤ path.length :=
        isPre_length_le _ _ hpre
      have hlastB : ∀ c, (pyRstrip url "/".data).getLast? = some c → c ≠ '/' := by
        intro c hc h
        exact pyRstrip_getLast?_not_mem url "/".data c hc (by simp [h])
      have hdlen : (path.drop (pyRstrip url "/".data).length).length =
          path.length - (pyRstrip url "/".data).length := by
        simp
      by_cases hslash :
          pyStartswith (path.drop (pyRstrip url "/".data).length) "/".data = true
      · rw [if_pos hslash]
        have hblen : 1 ≤ (pyRstrip url "/".data).length := List.length_pos.2 hu
        have hlt : (path.drop (pyRstrip url "/".data).length).length < n := by
          rw [hdlen]; omega
        exact ih _ hlt _ fuel le_rfl (by rw [hdlen]; omega)
      · rw [if_neg hslash]
        rcases hlen2 : (pyRstrip url "/".data).length with _ | m
        · exact absurd (List.length_eq_zero.1 hlen2) hu
        rcases m with _ | m
        · -- single-character base: one more unfolding lands in cases 2-4
          rcases hb : pyRstrip url "/".data with _ | ⟨c, cs⟩
          · exact absurd hb hu
          have hcs : cs = [] := by
            rw [hb] at hlen2
            simpa using List.length_eq_zero.1 (by simpa using hlen2)
          subst hcs
          have hcnot : c ≠ '/' := hlastB c (by rw [hb]; rfl)
          rcases fuel with _ | fuel
          · omega
          rw [cleanNextcloudPath_succ_notpre fuel url _ (by simp)
            (by rw [hb]; simp [pyStartswith, isPre, hcnot])]
          simp
        · -- base of length at least 2: the argument shrank
          rw [hlen2] at hple
          refine ih ('/' :: path.drop (m + 1 + 1)).length ?_ _ fuel le_rfl ?_
          · simp only [List.length_cons, List.length_drop]
            omega
          · simp only [List.length_cons, List.length_drop]
            omega
    · rw [if_neg hpre]
      simp

end WebDAV

namespace WebDAV

/-- The root connection url `'/'` keeps `clean_nextcloud_path` recursing
    on the same argument forever: no fuel suffices. -/
theorem cleanNextcloudPath_root_stuck :
    ∀ fuel, cleanNextcloudPath fuel "/".data "/x".data = none := by
  intro fuel
  induction fuel with
  | zero => rfl
  | succ n ih =>
    rw [show cleanNextcloudPath (n + 1) "/".data "/x".data =
        cleanNextcloudPath n "/".data "/x".data from rfl]
    exact ih

/-- C8, counterexample: for the non-empty connection url `'/'` and the
    path `'/x'`, `clean_nextcloud_path` does not terminate (a
    `RecursionError` in Python), refuting the claim for merely non-empty
    urls. -/
theorem C8_counterexample :
    "/".data ≠ [] ∧ ¬ cleanTerminates "/".data "/x".data := by
  constructor
  · decide
  · rintro ⟨fuel, r, h⟩
    rw [cleanNextcloudPath_root_stuck fuel] at h
    exact absurd h (by simp)

end WebDAV

namespace WebDAV

/-- C8, amended: whenever the connection url contains a character other
    than `/` (equivalently `url.rstrip('/')` is non-empty — a merely
    non-empty url such as `'/'` does not suffice, see the
    counterexample), `clean_nextcloud_path` terminates on every input
    path within recursion depth `len(path) + 2`, its result always
    begins with `'/'`, the empty path maps to `'/'`, and a path equal to
    the connection url maps to `'/'` (shown for urls with at most one
    trailing slash). -/
theorem C8_clean_nextcloud_path_normalizes (url : Str)
    (hu : pyRstrip url "/".data ≠ []) :
    (∀ path fuel, path.length + 2 ≤ fuel →
        ∃ r, cleanNextcloudPath fuel url path = some r ∧
          pyStartswith r "/".data = true)
    ∧ cleanNextcloudPath 2 url [] = some "/".data
    ∧ (pyEndswith url "/".data = false →
        cleanNextcloudPath (url.length + 2) url url = some "/".data)
    ∧ (pyEndswith url "/".data = true → pyEndswith url "//".data = false →
        cleanNextcloudPath (url.length + 2) url url = some "/".data) := by
  refine ⟨?_, ?_, ?_, ?_⟩
  · intro path fuel hfuel
    have hsome := cleanNextcloudPath_isSome url hu path.length path fuel le_rfl hfuel
    rcases hr : cleanNextcloudPath fuel url path with _ | r
    · rw [hr] at hsome; simp at hsome
    · exact ⟨r, rfl, cleanNextcloudPath_starts fuel url path r hr⟩
  · rw [cleanNextcloudPath]
    simp
  · intro hend
    have hne : url ≠ [] := by
      intro h
      subst h
      simp [pyRstrip, pyLstrip] at hu
    have hc : ∃ c t, url.reverse = c :: t ∧ c ≠ '/' := by
      rcases hrev : url.reverse with _ | ⟨c, t⟩
      · exact absurd (by simpa using congrArg List.reverse hrev) hne
      · refine ⟨c, t, rfl, ?_⟩
        intro hcq
        subst hcq
        rw [pyEndswith, hrev] at hend
        simp [isPre] at hend
    rcases hc with ⟨c, t, hrev, hcq⟩
    have hstrip : pyRstrip url "/".data = url := by
      refine pyRstrip_of_getLast?_not_mem url "/".data c ?_ (by simpa using hcq)
      rw [← List.head?_reverse, hrev]
      rfl
    have hlen : 1 ≤ url.length := by
      cases url with
      | nil => exact absurd rfl hne
      | cons a as => simp
    rw [show url.length + 2 = (url.length + 1) + 1 from rfl]
    rw [cleanNextcloudPath]
    rw [if_neg hne]
    rw [if_pos (by
      rw [hstrip]
      show isPre url url = true
      have := isPre_append url []
      simpa using this)]
    rw [if_pos (by rw [hstrip]; simp)]
  · intro hend1 hend2
    -- url = B ++ ['/'] with B = (d :: t').reverse, d ≠ '/'
    have hrev1 : ∃ t, url.reverse = '/' :: t := by
      rw [pyEndswith] at hend1
      rcases (isPre_iff _ _).1 (by simpa using hend1) with ⟨t, ht⟩
      exact ⟨t, by simpa using ht⟩
    rcases hrev1 with ⟨t, hrev⟩
    rcases t with _ | ⟨d, t'⟩
    · -- url = "/": excluded because its rstrip is empty
      have : url = ['/'] := by
        have := congrArg List.reverse hrev
        simpa using this
      subst this
      simp [pyRstrip, pyLstrip, List.dropWhile] at hu
    have hd : d ≠ '/' := by
      intro hdq
      subst hdq
      rw [pyEndswith, hrev] at hend2
      simp [isPre] at hend2
    have hurl : url = (d :: t').reverse ++ ['/'] := by
      have := congrArg List.reverse hrev
      simpa using this
    have hstrip : pyRstrip url "/".data = (d :: t').reverse := by
      unfold pyRstrip
      rw [hrev]
      rw [show "/".data = ['/'] from rfl]
      rw [List.dropWhile_cons_of_pos (by simp)]
      rw [List.dropWhile_cons_of_neg (by simpa using hd)]
    have hBlast : ∀ c, ((d :: t').reverse).getLast? = some c → c ≠ '/' := by
      intro c hc
      rw [List.getLast?_reverse] at hc
      simp only [List.head?_cons, Option.some.injEq] at hc
      subst hc
      exact hd
    have hBne : (d :: t').reverse ≠ [] := by simp
    have hulen : url.length = (d :: t').reverse.length + 1 := by
      rw [hurl]; simp
    rw [show url.length + 2 = (url.length + 1) + 1 from rfl]
    rw [cleanNextcloudPath]
    rw [if_neg (by rw [hurl]; simp)]
    rw [if_pos (by
      rw [hstrip, hurl]
      exact isPre_append _ _)]
    rw [if_neg (by
      rw [hstrip, hurl, List.drop_left]
      simp)]
    rw [if_pos (by
      rw [hstrip, hurl, List.drop_left]
      decide)]
    rw [hstrip, hurl, List.drop_left]
    -- one more step on the path ['/']
    rw [cleanNextcloudPath]
    rw [if_neg (by decide)]
    rw [if_neg (by
      rw [← hurl, hstrip]
      intro hp
      rcases isPre_singleton _ '/' hp with h0 | h1
      · exact hBne h0
      · have := hBlast '/' (by rw [h1]; rfl)
        exact this rfl)]
    rw [show cleanCases234 ['/'] = "/".data from by decide]

end WebDAV

namespace WebDAV

/-- C8, witness: the amended theorem applied to the connection url
    `http://h` and path `/a`. -/
theorem C8_witness :
    ∃ r, cleanNextcloudPath 4 "http://h".data "/a".data = some r ∧
      pyStartswith r "/".data = true :=
  (C8_clean_nextcloud_path_normalizes "http://h".data (by decide)).1
    "/a".data 4 (by decide)

end WebDAV

namespace WebDAV

/-- C9: whenever `navigate_to_path` completes and assigns
    `self.current_path`, the assigned value is either exactly `'/'` or a
    string that begins with `'/'` and ends with exactly one `'/'`. -/
theorem C9_navigate_to_path_normalizes (fuel : Nat) (mode connUrl path p : Str)
    (h : navigateToPath fuel mode connUrl path = some p) :
    p = "/".data ∨
      (pyStartswith p "/".data = true ∧ pyEndswith p "/".data = true ∧
       pyEndswith p "//".data = false) := by
  unfold navigateToPath at h
  rcases hc : cleanNextcloudPath fuel connUrl
      (if mode = "nextcloud_share".data ∧ isNextcloudSharedLink connUrl = true
       then fixSharedLinkPath mode connUrl path else path) with _ | cleanPath <;>
    rw [hc] at h
  · exact absurd h (by simp)
  · simp only [Option.some.injEq] at h
    by_cases heq : cleanPath = "/".data
    · rw [if_neg (by simp [heq])] at h
      exact Or.inl (h ▸ heq)
    · rw [if_pos (by simpa using heq)] at h
      rcases hB : pyRstrip cleanPath "/".data with _ | ⟨b, bs⟩
      · rw [hB] at h
        exact Or.inl (by simpa using h.symm)
      · right
        have hBne : pyRstrip cleanPath "/".data ≠ [] := by rw [hB]; simp
        have hstarts : pyStartswith cleanPath "/".data = true :=
          cleanNextcloudPath_starts fuel connUrl _ cleanPath hc
        have hb : b = '/' := by
          have hh := pyRstrip_head cleanPath "/".data hBne
          rw [hB] at hh
          rcases (isPre_iff "/".data cleanPath).1 hstarts with ⟨t, ht⟩
          rw [ht] at hh
          simpa using hh
        have hlast : ∀ c, (pyRstrip cleanPath "/".data).getLast? = some c →
            c ≠ '/' := by
          intro c hcly hcq
          exact pyRstrip_getLast?_not_mem cleanPath "/".data c hcly (by simp [hcq])
        refine ⟨?_, ?_, ?_⟩
        · rw [← h, hB, hb]
          simp [pyStartswith, isPre]
        · rw [← h, pyEndswith]
          simp [isPre]
        · rw [← h, pyEndswith]
          rcases hL : (pyRstrip cleanPath "/".data).getLast? with _ | c
        -- a non-empty list has a last element
          · rw [hB] at hL
            simp [List.getLast?] at hL
          · have hcq := hlast c hL
            have hrevB : (pyRstrip cleanPath "/".data).reverse.head? = some c := by
              rw [List.head?_reverse]
              exact hL
            rcases hrB : (pyRstrip cleanPath "/".data).reverse with _ | ⟨c', t'⟩
            · rw [hrB] at hrevB; simp at hrevB
            · rw [hrB] at hrevB
              simp only [List.head?_cons, Option.some.injEq] at hrevB
              subst hrevB
              rw [List.reverse_append, hrB]
              simp [isPre, Ne.symm hcq]

/-- C9, witness: `navigate_to_path` on a concrete webdav-mode input. -/
theorem C9_witness :
    "/a/b//".data = "/a/b//".data ∧
      ((navigateToPath 9 "webdav".data "http://h".data "/a/b//".data).getD [] =
          "/".data ∨
        (pyStartswith
            ((navigateToPath 9 "webdav".data "http://h".data "/a/b//".data).getD [])
            "/".data = true ∧
          pyEndswith
            ((navigateToPath 9 "webdav".data "http://h".data "/a/b//".data).getD [])
            "/".data = true ∧
          pyEndswith
            ((navigateToPath 9 "webdav".data "http://h".data "/a/b//".data).getD [])
            "//".data = false)) := by
  refine ⟨rfl, ?_⟩
  have h := C9_navigate_to_path_normalizes 9 "webdav".data "http://h".data
    "/a/b//".data "/a/b/".data (by decide)
  rcases h with h | h
  · exact Or.inl (by rw [show (navigateToPath 9 "webdav".data "http://h".data
      "/a/b//".data).getD [] = "/a/b/".data from by decide, h])
  · exact Or.inr (by
      rw [show (navigateToPath 9 "webdav".data "http://h".data
        "/a/b//".data).getD [] = "/a/b/".data from by decide]
      exact h)

end WebDAV

namespace PyStr

theorem pyStrip_nil : pyStrip [] = [] := rfl

theorem pyStrip_eq_nil_iff (s : Str) :
    pyStrip s = [] ↔ ∀ c ∈ s, c ∈ wsChars := by
  unfold pyStrip
  rw [pyRstrip_eq_nil_iff]
  constructor
  · intro h c hc
    have hsplit := List.takeWhile_append_dropWhile
      (p := fun c => decide (c ∈ wsChars)) (l := s)
    rw [← hsplit] at hc
    rcases List.mem_append.1 hc with h1 | h2
    · simpa using List.mem_takeWhile_imp h1
    · exact h c h2
  · intro h c hc
    exact h c ((List.dropWhile_suffix _).subset hc)

theorem pyStrip_head_not_mem (s : Str) (c : Char) (t : Str)
    (h : pyStrip s = c :: t) : c ∉ wsChars := by
  unfold pyStrip at h
  have hne : pyRstrip (pyLstrip s wsChars) wsChars ≠ [] := by rw [h]; simp
  have hh := pyRstrip_head (pyLstrip s wsChars) wsChars hne
  rw [h] at hh
  rcases hl : pyLstrip s wsChars with _ | ⟨d, t2⟩
  · rw [hl] at hh; simp at hh
  · rw [hl] at hh
    simp only [List.head?_cons, Option.some.injEq] at hh
    have hd := dropWhile_head_not (fun x => decide (x ∈ wsChars)) s d t2 hl
    rw [hh]
    simpa using hd

theorem pyStrip_pyStrip_nil_iff (s : Str) :
    pyStrip (pyStrip s) = [] ↔ pyStrip s = [] := by
  constructor
  · intro h
    rcases hs : pyStrip s with _ | ⟨c, t⟩
    · rfl
    · rw [hs] at h
      have hmem := (pyStrip_eq_nil_iff (c :: t)).1 h c (by simp)
      exact absurd hmem (pyStrip_head_not_mem s c t hs)
  · intro h
    rw [h]
    rfl

theorem pyStrip_pyRstrip_pyStrip_nil_iff (s cs : Str) :
    pyStrip (pyRstrip (pyStrip s) cs) = [] ↔ pyRstrip (pyStrip s) cs = [] := by
  constructor
  · intro h
    rcases hv : pyRstrip (pyStrip s) cs with _ | ⟨c, t⟩
    · rfl
    · rw [hv] at h
      have hmem := (pyStrip_eq_nil_iff (c :: t)).1 h c (by simp)
      have hpre := pyRstrip_isPrefix (pyStrip s) cs
      rw [hv] at hpre
      rcases hpre with ⟨t2, ht2⟩
      have hhead : pyStrip s = c :: (t ++ t2) := by rw [← ht2]; simp
      exact absurd hmem (pyStrip_head_not_mem s c (t ++ t2) hhead)
  · intro h
    rw [h]
    rfl

/-- `pyRstrip` never leaves a stripped character at the end. -/
theorem pyEndswith_pyRstrip_false (s cs : Str) (c : Char) (hc : c ∈ cs) :
    pyEndswith (pyRstrip s cs) [c] = false := by
  unfold pyEndswith
  rcases hv : pyRstrip s cs with _ | ⟨d, t⟩
  · simp [isPre]
  · rcases hr : (d :: t).reverse with _ | ⟨e, t2⟩
    · simp at hr
    · have hlast : (pyRstrip s cs).getLast? = some e := by
        rw [← List.head?_reverse, hv, hr]
        rfl
      have hnot := pyRstrip_getLast?_not_mem s cs e hlast
      have hce : c ≠ e := fun h => hnot (h ▸ hc)
      simp only [show ([c] : Str).reverse = [c] from by simp]
      simp [isPre, hce]

end PyStr

namespace WebDAVDialog

/-- C10: `get_connection_info` always returns a normalized profile: name
    and username whitespace-trimmed, url trimmed and stripped of all
    trailing slashes (so it never ends in `'/'`), the password untouched,
    and root_path `'/'` exactly when the field is empty or all whitespace
    (otherwise the trimmed field value). -/
theorem C10_get_connection_info_normalized (f : DialogFields) :
    (getConnectionInfo f).name = pyStrip f.nameEdit ∧
    (getConnectionInfo f).url = pyRstrip (pyStrip f.urlEdit) "/".data ∧
    pyEndswith (getConnectionInfo f).url "/".data = false ∧
    (getConnectionInfo f).username = pyStrip f.usernameEdit ∧
    (getConnectionInfo f).password = f.passwordEdit ∧
    (getConnectionInfo f).rootPath =
      (if pyStrip f.rootPathEdit = [] then "/".data else pyStrip f.rootPathEdit) ∧
    (pyStrip f.rootPathEdit = [] ↔ ∀ c ∈ f.rootPathEdit, c ∈ wsChars) := by
  refine ⟨rfl, rfl, ?_, rfl, rfl, rfl, pyStrip_eq_nil_iff _⟩
  exact pyEndswith_pyRstrip_false (pyStrip f.urlEdit) "/".data '/' (by simp)

/-- C5: `accept()` closes the dialog exactly when both the trimmed name
    and the trimmed, trailing-slash-stripped url are non-empty; otherwise
    the dialog stays open and no profile is produced, so every profile
    produced through the dialog has a non-empty name and url. -/
theorem C5_dialog_accept_validates (f : DialogFields) :
    (dialogAccept f = true ↔
      (pyStrip f.nameEdit ≠ [] ∧ pyRstrip (pyStrip f.urlEdit) "/".data ≠ []))
    ∧ (dialogAccept f = false → dialogProfile f = none)
    ∧ (∀ p, dialogProfile f = some p → p.name ≠ [] ∧ p.url ≠ []) := by
  have hacc : dialogAccept f = true ↔
      (pyStrip f.nameEdit ≠ [] ∧ pyRstrip (pyStrip f.urlEdit) "/".data ≠ []) := by
    unfold dialogAccept getConnectionInfo
    simp only
    by_cases h1 : pyStrip (pyStrip f.nameEdit) = []
    · rw [if_pos h1]
      simp only [Bool.false_eq_true, false_iff, not_and]
      intro hn
      exact absurd ((pyStrip_pyStrip_nil_iff f.nameEdit).1 h1) hn
    · rw [if_neg h1]
      by_cases h2 : pyStrip (pyRstrip (pyStrip f.urlEdit) "/".data) = []
      · rw [if_pos h2]
        simp only [Bool.false_eq_true, false_iff, not_and]
        intro _
        exact fun hu => absurd
          ((pyStrip_pyRstrip_pyStrip_nil_iff f.urlEdit "/".data).1 h2) hu
      · rw [if_neg h2]
        simp only [true_iff]
        constructor
        · intro hn
          exact h1 (by rw [hn]; rfl)
        · intro hu
          exact h2 (by rw [hu]; rfl)
  refine ⟨hacc, ?_, ?_⟩
  · intro hfalse
    unfold dialogProfile
    rw [if_neg (by simp [hfalse])]
  · intro p hp
    unfold dialogProfile at hp
    by_cases hb : dialogAccept f = true
    · rw [if_pos hb] at hp
      simp only [Option.some.injEq] at hp
      rcases hacc.1 hb with ⟨hn, hu⟩
      constructor
      · rw [← hp]
        exact hn
      · rw [← hp]
        exact hu
    · rw [if_neg hb] at hp
      exact absurd hp (by simp)

/-- C5, witness: a concrete accepted dialog state. -/
theorem C5_witness :
    dialogAccept ⟨" my conn ".data, " http://h/ ".data, [], [], "  ".data⟩ = true ∧
    (∀ p, dialogProfile
        ⟨" my conn ".data, " http://h/ ".data, [], [], "  ".data⟩ = some p →
      p.name ≠ [] ∧ p.url ≠ []) := by
  constructor
  · exact (C5_dialog_accept_validates
      ⟨" my conn ".data, " http://h/ ".data, [], [], "  ".data⟩).1.2
      (by constructor <;> decide)
  · exact (C5_dialog_accept_validates
      ⟨" my conn ".data, " http://h/ ".data, [], [], "  ".data⟩).2.2

end WebDAVDialog

namespace WebDAVSettings

open WebDAV WebDAVDialog

theorem key_ne (a b : Str) (h : a ≠ b) (g n : Str) :
    ([g, n, a] : List Str) ≠ [g, n, b] := by
  intro he
  apply h
  simpa using he

theorem getValue_saveConnection (store : SettingsStore) (c : ConnInfo) :
    getValue (saveConnection store c) [connGroup, c.name, "url".data] [] = c.url
    ∧ getValue (saveConnection store c)
        [connGroup, c.name, "username".data] [] = c.username
    ∧ getValue (saveConnection store c)
        [connGroup, c.name, "password".data] [] = c.password
    ∧ getValue (saveConnection store c)
        [connGroup, c.name, "root_path".data] "/".data = c.rootPath := by
  simp only [saveConnection, setValue, List.cons_append, List.nil_append]
  refine ⟨?_, ?_, ?_, ?_⟩
  · rw [getValue, if_neg (key_ne _ _ (by decide) _ _),
        getValue, if_neg (key_ne _ _ (by decide) _ _),
        getValue, if_neg (key_ne _ _ (by decide) _ _),
        getValue, if_pos rfl]
  · rw [getValue, if_neg (key_ne _ _ (by decide) _ _),
        getValue, if_neg (key_ne _ _ (by decide) _ _),
        getValue, if_pos rfl]
  · rw [getValue, if_neg (key_ne _ _ (by decide) _ _),
        getValue, if_pos rfl]
  · rw [getValue, if_pos rfl]

theorem mem_childGroups_saveConnection (store : SettingsStore) (c : ConnInfo) :
    c.name ∈ childGroups (saveConnection store c) := by
  apply List.mem_dedup.2
  apply List.mem_filterMap.2
  refine ⟨([connGroup, c.name, "url".data], c.url), ?_, by simp⟩
  simp [saveConnection, setValue]

/-- C4: connection profiles round-trip through the settings store keyed
    by name: after `save_connection(c)`, `load_connections` yields
    a duplicate-free profile list containing exactly one profile named
    `c.name` (the name list is duplicate-free and `c.name` occurs in
    it), and that profile carries `c`'s
    url, username, password and root_path.  (Saving twice under one name
    is the instance where `store` is itself a store already containing a
    profile of that name: the count stays one and the fields are the
    second save's.) -/
theorem C4_connection_roundtrip (store : SettingsStore) (c : ConnInfo) :
    ((loadConnections (saveConnection store c)).map
        (fun p => p.name)).Nodup
    ∧ (∃ p ∈ loadConnections (saveConnection store c), p.name = c.name)
    ∧ (∀ p ∈ loadConnections (saveConnection store c), p.name = c.name →
        p = ⟨c.name, c.url, c.username, c.password, c.rootPath⟩) := by
  have hmap : (loadConnections (saveConnection store c)).map (fun p => p.name) =
      childGroups (saveConnection store c) := by
    unfold loadConnections
    rw [List.map_map]
    exact List.map_id _
  refine ⟨?_, ?_, ?_⟩
  · rw [hmap]
    exact List.nodup_dedup _
  · refine ⟨{ name := c.name
            , url := getValue (saveConnection store c)
                [connGroup, c.name, "url".data] []
            , username := getValue (saveConnection store c)
                [connGroup, c.name, "username".data] []
            , password := getValue (saveConnection store c)
                [connGroup, c.name, "password".data] []
            , rootPath := getValue (saveConnection store c)
                [connGroup, c.name, "root_path".data] "/".data }, ?_, rfl⟩
    unfold loadConnections
    exact List.mem_map.2 ⟨c.name, mem_childGroups_saveConnection store c, rfl⟩
  · intro p hp hname
    unfold loadConnections at hp
    rcases List.mem_map.1 hp with ⟨n, _, hfn⟩
    have hn : n = c.name := by rw [← hname, ← hfn]
    subst hn
    rcases getValue_saveConnection store c with ⟨h1, h2, h3, h4⟩
    rw [← hfn]
    simp [h1, h2, h3, h4]

/-- C4, witness: the round trip at a concrete profile over the empty
    store, and the overwrite at a second save under the same name. -/
theorem C4_witness :
    (∃ p ∈ loadConnections (saveConnection [] ⟨"n".data, "http://h".data,
        "u".data, "pw".data, "/r".data⟩), p.name = "n".data)
    ∧ (∀ p ∈ loadConnections (saveConnection
        (saveConnection [] ⟨"n".data, "old".data, [], [], "/".data⟩)
        ⟨"n".data, "http://h".data, "u".data, "pw".data, "/r".data⟩),
        p.name = "n".data →
        p = ⟨"n".data, "http://h".data, "u".data, "pw".data, "/r".data⟩) := by
  constructor
  · exact (C4_connection_roundtrip []
      ⟨"n".data, "http://h".data, "u".data, "pw".data, "/r".data⟩).2.1
  · exact (C4_connection_roundtrip
      (saveConnection [] ⟨"n".data, "old".data, [], [], "/".data⟩)
      ⟨"n".data, "http://h".data, "u".data, "pw".data, "/r".data⟩).2.2

end WebDAVSettings

namespace WebDAV

/-- A concrete item for exercising the dispatch: what
    `extract_item_info` yields for href `/a.tif` with empty properties. -/
def c3Item : Item :=
  { name := "a.tif".data
  , path := "/a.tif".data
  , fullPath := "/a.tif".data
  , isFolder := false
  , size := 0
  , date := some []
  , contentType := some []
  , extension := ".tif".data
  , fileType := "raster".data
  , iconType := "raster".data
  , handler := .handleRasterFile
  , url := "http://h/a.tif".data
  , isAbsoluteUrl := false }

/-- C3: file-type dispatch in `extract_item_info` is the static
    extension-to-handler lookup: for every item it returns, a non-folder
    item's file_type/icon/handler triple equals the `file_handlers`
    lookup at the lowercased suffix of the item's name (defaulting to
    the generic 'unknown' entry when the suffix is absent from the
    table), and a folder item gets the fixed folder entry independent of
    its name. -/
theorem C3_extract_item_info_dispatch
    (fuel : Nat) (connUrl filePath : Str) (props : XML) (item : Item)
    (h : extractItemInfo fuel connUrl filePath props = some item) :
    (item.isFolder = false →
      item.extension = pyLower (pySuffix item.name)
      ∧ (⟨item.fileType, item.iconType, item.handler⟩ : FileInfo)
          = fileHandlersGet (pyLower (pySuffix item.name)))
    ∧ (item.isFolder = true →
      item.extension = []
      ∧ (⟨item.fileType, item.iconType, item.handler⟩ : FileInfo)
          = folderFileInfo)
    ∧ (∀ ext, fileHandlers.lookup ext = none →
        fileHandlersGet ext = unknownFileInfo) := by
  refine ⟨?_, ?_, fun ext hl => by rw [fileHandlersGet, hl]; rfl⟩ <;>
  · intro hfold
    simp only [extractItemInfo] at h
    split at h
    · exact absurd h (by simp)
    · split at h
      · exact absurd h (by simp)
      · rw [← Option.some.inj h] at hfold ⊢
        simp only at hfold
        simp [hfold]

/-- C3, witness: a concrete non-folder `.tif` entry is dispatched to the
    raster handler via the table. -/
theorem C3_witness :
    (c3Item.isFolder = false →
      c3Item.extension = pyLower (pySuffix c3Item.name)
      ∧ (⟨c3Item.fileType, c3Item.iconType, c3Item.handler⟩ : FileInfo)
          = fileHandlersGet (pyLower (pySuffix c3Item.name)))
    ∧ (c3Item.isFolder = true →
      c3Item.extension = []
      ∧ (⟨c3Item.fileType, c3Item.iconType, c3Item.handler⟩ : FileInfo)
          = folderFileInfo)
    ∧ (∀ ext, fileHandlers.lookup ext = none →
        fileHandlersGet ext = unknownFileInfo) :=
  C3_extract_item_info_dispatch 16 "http://h".data "/a.tif".data
    (XML.elem "r".data none []) c3Item (by decide)

end WebDAV

namespace WebDAV

/-- C7: `download_file` contains its errors: it never lets an exception
    escape, the progress bar is hidden on every return path, every
    failure (connection error, non-200 status, or file-write error)
    produces the modal critical dialog and an error status label, and in
    every case the single dialog shown is either that error dialog or
    the success information dialog. -/
theorem C7_download_file_contained (env : ReqEnv)
    (connUrl currentPath fileName fileUrl : Str) (r : DownloadResult)
    (h : downloadFile env connUrl currentPath fileName fileUrl = r) :
    r.raised = false
    ∧ r.progressVisible = false
    ∧ ((env.raises 0 = true ∨ env.status 0 ≠ 200 ∨ env.writeFails = true) →
        r.dialogs = [.critical "Erreur téléchargement".data]
        ∧ isPre "❌".data r.statusLabel = true)
    ∧ (r.dialogs = [.critical "Erreur téléchargement".data]
        ∨ r.dialogs = [.information "Téléchargement terminé".data]) := by
  subst h
  simp only [downloadFile]
  split
  · exact ⟨rfl, rfl, fun _ => ⟨rfl, rfl⟩, Or.inl rfl⟩
  · split_ifs with h1 h2 h3
    · exact ⟨rfl, rfl, fun _ => ⟨rfl, rfl⟩, Or.inl rfl⟩
    · exact ⟨rfl, rfl, fun _ => ⟨rfl, rfl⟩, Or.inl rfl⟩
    · exact ⟨rfl, rfl, fun _ => ⟨rfl, rfl⟩, Or.inl rfl⟩
    · refine ⟨rfl, rfl, fun hf => ?_, Or.inr rfl⟩
      rcases hf with hf | hf | hf
      · exact absurd hf h1
      · exact absurd hf h2
      · exact absurd hf h3

/-- C7, witness: a concrete 404 download shows the error dialog, hides
    the progress bar and raises nothing. -/
theorem C7_witness :
    (downloadFile ⟨fun _ => 404, fun _ => false, false, false⟩
      "http://h".data "/".data "f.tif".data "http://h/f.tif".data).raised = false
    ∧ (downloadFile ⟨fun _ => 404, fun _ => false, false, false⟩
      "http://h".data "/".data "f.tif".data "http://h/f.tif".data).progressVisible
        = false
    ∧ (((⟨fun _ => 404, fun _ => false, false, false⟩ : ReqEnv).raises 0 = true
        ∨ (⟨fun _ => 404, fun _ => false, false, false⟩ : ReqEnv).status 0 ≠ 200
        ∨ (⟨fun _ => 404, fun _ => false, false, false⟩ : ReqEnv).writeFails
            = true) →
        (downloadFile ⟨fun _ => 404, fun _ => false, false, false⟩
          "http://h".data "/".data "f.tif".data "http://h/f.tif".data).dialogs
            = [.critical "Erreur téléchargement".data]
        ∧ isPre "❌".data (downloadFile ⟨fun _ => 404, fun _ => false, false, false⟩
            "http://h".data "/".data "f.tif".data
            "http://h/f.tif".data).statusLabel = true)
    ∧ ((downloadFile ⟨fun _ => 404, fun _ => false, false, false⟩
          "http://h".data "/".data "f.tif".data "http://h/f.tif".data).dialogs
            = [.critical "Erreur téléchargement".data]
        ∨ (downloadFile ⟨fun _ => 404, fun _ => false, false, false⟩
            "http://h".data "/".data "f.tif".data "http://h/f.tif".data).dialogs
            = [.information "Téléchargement terminé".data]) :=
  C7_download_file_contained ⟨fun _ => 404, fun _ => false, false, false⟩
    "http://h".data "/".data "f.tif".data "http://h/f.tif".data
    (downloadFile ⟨fun _ => 404, fun _ => false, false, false⟩
      "http://h".data "/".data "f.tif".data "http://h/f.tif".data) rfl

end WebDAV

namespace WebDAV

theorem rdt_429_requests (env : ReqEnv) (req : Request) (okLabel : Str)
    (h0 : env.raises 0 = false) (h429 : env.status 0 = 429) :
    (rasterDownloadTail env req okLabel).requests = [req, req] := by
  unfold rasterDownloadTail
  rw [if_neg (by simp [h0]), if_pos (by simp [h429]), if_pos h429]
  split_ifs <;> rfl

/-- C2, counterexample: `load_craig_raster` — a request path other than
    `load_raster_file_with_download` — also re-issues a rate-limited GET:
    under a 429-then-200 environment it sends the same download URL
    twice. -/
theorem C2_counterexample :
    (loadCraigRaster ⟨fun n => if n = 0 then 429 else 200, fun _ => false,
        false, true⟩
      "https://drive.opendata.craig.fr/s/opendata".data "/".data
      "f.tif".data).requests
    = [⟨"GET".data,
        "https://drive.opendata.craig.fr/s/opendata/download?path=&files=f.tif".data,
        none⟩,
       ⟨"GET".data,
        "https://drive.opendata.craig.fr/s/opendata/download?path=&files=f.tif".data,
        none⟩] := by decide

/-- C2 (amended): the raster download tail shared by
    `load_raster_file_with_download` and `load_craig_raster` performs
    exactly one hardcoded retry on HTTP 429 (a single further GET to the
    same URL, failing if the retry is not 200), raises immediately with
    no second request on any other non-200 status, and never issues more
    than two requests; `download_file` never re-issues a request; and
    `load_craig_raster` re-issues a rate-limited GET in exactly the same
    way, so the one-retry path is not unique to
    `load_raster_file_with_download`. -/
theorem C2_single_retry_on_rate_limit :
    (∀ env req okLabel,
      (env.raises 0 = false → env.status 0 = 429 →
        (rasterDownloadTail env req okLabel).requests = [req, req])
      ∧ (env.raises 0 = false → env.status 0 = 429 → env.raises 1 = false →
          env.status 1 ≠ 200 →
          rasterDownloadTail env req okLabel = lrError [req, req])
      ∧ (env.raises 0 = false → env.status 0 ≠ 200 → env.status 0 ≠ 429 →
          rasterDownloadTail env req okLabel = lrError [req])
      ∧ ((rasterDownloadTail env req okLabel).requests = [req]
          ∨ (rasterDownloadTail env req okLabel).requests = [req, req]))
    ∧ (∀ env connUrl currentPath fileName,
        loadRasterFileWithDownload env connUrl currentPath fileName
          = rasterDownloadTail env
              ⟨"GET".data, buildDownloadUrl connUrl currentPath fileName, none⟩
              ("✅ Raster chargé: ".data ++ fileName))
    ∧ (∀ env a b c d, (downloadFile env a b c d).requests.length ≤ 1)
    ∧ (∀ env connUrl currentPath fileName, env.raises 0 = false →
        env.status 0 = 429 →
        (loadCraigRaster env connUrl currentPath fileName).requests = []
        ∨ ∃ r, (loadCraigRaster env connUrl currentPath fileName).requests
            = [r, r]) := by
  refine ⟨fun env req okLabel => ⟨rdt_429_requests env req okLabel, ?_, ?_, ?_⟩,
    fun env c p f => rfl, ?_, ?_⟩
  · intro h0 h429 h1 hs1
    unfold rasterDownloadTail
    rw [if_neg (by simp [h0]), if_pos (by simp [h429]), if_pos h429,
        if_neg (by simp [h1]), if_pos hs1]
  · intro h0 hs hn
    unfold rasterDownloadTail
    rw [if_neg (by simp [h0]), if_pos (by simp [hs]), if_neg hn]
  · unfold rasterDownloadTail
    split_ifs <;> simp [lrError, lrSuccess]
  · intro env a b c d
    simp only [downloadFile]
    split
    · simp [dfError]
    · split_ifs <;> simp [dfError]
  · intro env connUrl currentPath fileName h0 h429
    simp only [loadCraigRaster]
    split_ifs with hsplit
    · exact Or.inl rfl
    · exact Or.inr ⟨_, rdt_429_requests env _ _ h0 h429⟩

/-- C2, witness: a 429-then-200 environment makes the shared tail issue
    the one retry to the same URL, and a plain 200 download issues at
    most one request. -/
theorem C2_witness :
    (rasterDownloadTail ⟨fun n => if n = 0 then 429 else 200, fun _ => false,
        false, true⟩ ⟨"GET".data, "u".data, none⟩ "ok".data).requests
      = [⟨"GET".data, "u".data, none⟩, ⟨"GET".data, "u".data, none⟩]
    ∧ (downloadFile ⟨fun _ => 200, fun _ => false, false, true⟩
        "http://h".data "/".data "f".data "http://h/f".data).requests.length
      ≤ 1 :=
  ⟨(C2_single_retry_on_rate_limit.1
      ⟨fun n => if n = 0 then 429 else 200, fun _ => false, false, true⟩
      ⟨"GET".data, "u".data, none⟩ "ok".data).1 rfl rfl,
   C2_single_retry_on_rate_limit.2.2.1
      ⟨fun _ => 200, fun _ => false, false, true⟩
      "http://h".data "/".data "f".data "http://h/f".data⟩

end WebDAV

namespace WebDAV

theorem parse_fold_char (fuel : Nat) (connUrl currentPath : Str) (l : List XML) :
    ∀ (acc items : List Item),
      (l.foldlM (fun acc resp =>
        match parseEntry fuel connUrl currentPath resp with
        | .error _ => none
        | .ok none => some acc
        | .ok (some item) => some (acc ++ [item])) acc) = some items
      ↔ (∀ r ∈ l, ((parseEntry fuel connUrl currentPath r).toOption).isSome = true)
        ∧ items = acc ++ l.filterMap
            (fun r => ((parseEntry fuel connUrl currentPath r).toOption).join) := by
  induction l with
  | nil =>
    intro acc items
    simp only [List.foldlM_nil, Option.pure_def, Option.some.injEq,
      List.not_mem_nil, false_implies, implies_true, true_and,
      List.filterMap_nil, List.append_nil]
    exact eq_comm
  | cons r rs ih =>
    intro acc items
    rw [List.foldlM_cons]
    rcases hr : parseEntry fuel connUrl currentPath r with e | o
    · simp [hr, Except.toOption]
    · rcases o with _ | item
      · simp only [hr]
        rw [show ((some acc : Option (List Item)) >>= fun b =>
              rs.foldlM (fun acc resp =>
                match parseEntry fuel connUrl currentPath resp with
                | .error _ => none
                | .ok none => some acc
                | .ok (some item) => some (acc ++ [item])) b)
            = rs.foldlM (fun acc resp =>
                match parseEntry fuel connUrl currentPath resp with
                | .error _ => none
                | .ok none => some acc
                | .ok (some item) => some (acc ++ [item])) acc from rfl]
        rw [ih acc items]
        simp [hr, Except.toOption, Option.join]
      · simp only [hr]
        rw [show ((some (acc ++ [item]) : Option (List Item)) >>= fun b =>
              rs.foldlM (fun acc resp =>
                match parseEntry fuel connUrl currentPath resp with
                | .error _ => none
                | .ok none => some acc
                | .ok (some item) => some (acc ++ [item])) b)
            = rs.foldlM (fun acc resp =>
                match parseEntry fuel connUrl currentPath resp with
                | .error _ => none
                | .ok none => some acc
                | .ok (some item) => some (acc ++ [item])) (acc ++ [item])
            from rfl]
        rw [ih (acc ++ [item]) items]
        simp [hr, Except.toOption, Option.join]

/-- C6, counterexample: a call to `refresh_webdav_content` need not issue
    any request at all — with connection url `http://` the sanitized
    folder URL is rejected and the `raise` fires before the PROPFIND, so
    zero requests are sent, not exactly one. -/
theorem C6_counterexample :
    refreshWebdavRequests 16 "http://".data "/".data = [] := by decide

/-- C6 (amended): in `webdav` mode `refresh_webdav_content` issues at
    most one request, and exactly one PROPFIND with `Depth: 1` at the
    computed folder URL whenever that URL computation succeeds;
    `parse_webdav_response` omits every entry whose cleaned href path
    equals the current path up to trailing slashes (in particular the
    listed folder itself), and a successful parse returns exactly the
    items of the remaining well-formed entries, in document order. -/
theorem C6_refresh_and_parse :
    (∀ fuel connUrl currentPath,
      (refreshWebdavRequests fuel connUrl currentPath).length ≤ 1)
    ∧ (∀ fuel connUrl currentPath u,
        refreshFolderUrl fuel connUrl currentPath = some u →
        refreshWebdavRequests fuel connUrl currentPath
          = [⟨"PROPFIND".data, u, some "1".data⟩])
    ∧ (∀ fuel connUrl currentPath resp hrefEl ps htext path,
        findDesc "{DAV:}href".data resp = some hrefEl →
        findDesc "{DAV:}propstat".data resp = some ps →
        hrefEl.text = some htext →
        cleanNextcloudPath fuel connUrl (pyUnquote htext) = some path →
        (pyRstrip path "/".data = pyRstrip currentPath "/".data
          ∨ path = currentPath) →
        parseEntry fuel connUrl currentPath resp = .ok none)
    ∧ (∀ fuel connUrl currentPath root items,
        parseWebdavResponse fuel connUrl currentPath root = some items
        ↔ (∀ r ∈ findallDesc "{DAV:}response".data root,
            ((parseEntry fuel connUrl currentPath r).toOption).isSome = true)
          ∧ items = (findallDesc "{DAV:}response".data root).filterMap
              (fun r => ((parseEntry fuel connUrl currentPath r).toOption).join)) := by
  refine ⟨?_, ?_, ?_, ?_⟩
  · intro fuel connUrl currentPath
    unfold refreshWebdavRequests
    rcases refreshFolderUrl fuel connUrl currentPath with _ | u <;> simp
  · intro fuel connUrl currentPath u h
    unfold refreshWebdavRequests
    rw [h]
  · intro fuel connUrl currentPath resp hrefEl ps htext path h1 h2 h3 h4 h5
    simp only [parseEntry, h1, h2, h3, h4]
    rw [if_pos h5]
  · intro fuel connUrl currentPath root items
    unfold parseWebdavResponse
    rw [parse_fold_char fuel connUrl currentPath _ [] items]
    simp

/-- C6, witness: with connection url `http://h` and current path `/a`
    exactly one PROPFIND with Depth 1 is issued at `http://h/a`, and a
    concrete entry whose href `/a/` cleans to the current path up to its
    trailing slash is omitted by the parser. -/
theorem C6_witness :
    refreshWebdavRequests 16 "http://h".data "/a".data
      = [⟨"PROPFIND".data, "http://h/a".data, some "1".data⟩]
    ∧ parseEntry 16 "http://h".data "/a".data
        (XML.elem "{DAV:}response".data none
          [XML.elem "{DAV:}href".data (some "/a/".data) [],
           XML.elem "{DAV:}propstat".data none []]) = .ok none :=
  ⟨C6_refresh_and_parse.2.1 16 "http://h".data "/a".data "http://h/a".data
      (by decide),
   C6_refresh_and_parse.2.2.1 16 "http://h".data "/a".data
      (XML.elem "{DAV:}response".data none
        [XML.elem "{DAV:}href".data (some "/a/".data) [],
         XML.elem "{DAV:}propstat".data none []])
      (XML.elem "{DAV:}href".data (some "/a/".data) [])
      (XML.elem "{DAV:}propstat".data none [])
      "/a/".data "/a/".data rfl rfl rfl (by decide) (Or.inl (by decide))⟩

end WebDAV

namespace WebDAV

theorem pySplit1_scheme_http (t : Str) :
    pySplit1 "://".data ("http://".data ++ t) = some ("http".data, t) := rfl

theorem pySplit1_scheme_https (t : Str) :
    pySplit1 "://".data ("https://".data ++ t) = some ("https".data, t) := rfl

theorem isPre_https_http (t : Str) :
    isPre "https:/".data ("http://".data ++ t) = false := rfl

theorem isPre_http_https (t : Str) :
    isPre "http:/".data ("https://".data ++ t) = false := rfl

theorem isPre_https_httpcolon (t : Str) :
    isPre "https:/".data ("http:/".data ++ t) = false := rfl

theorem isPre_http_httpscolon (t : Str) :
    isPre "http:/".data ("https:/".data ++ t) = false := rfl

theorem step3_cond2_false_http (t : Str) :
    ¬(pyStartswith ("http://".data ++ t) "https:/".data = true
      ∧ ¬ pyStartswith ("http://".data ++ t) "https://".data = true) := by
  rintro ⟨hc, -⟩
  have h' : isPre "https:/".data ("http://".data ++ t) = true := hc
  rw [isPre_https_http] at h'
  exact Bool.false_ne_true h'

theorem step3_cond1_false_httpscolon (t : Str) :
    ¬(pyStartswith ("https:/".data ++ t) "http:/".data = true
      ∧ ¬ pyStartswith ("https:/".data ++ t) "http://".data = true) := by
  rintro ⟨hc, -⟩
  have h' : isPre "http:/".data ("https:/".data ++ t) = true := hc
  rw [isPre_http_httpscolon] at h'
  exact Bool.false_ne_true h'

theorem step3_cond1_false_https (t : Str) :
    ¬(pyStartswith ("https://".data ++ t) "http:/".data = true
      ∧ ¬ pyStartswith ("https://".data ++ t) "http://".data = true) := by
  rintro ⟨hc, -⟩
  have h' : isPre "http:/".data ("https://".data ++ t) = true := hc
  rw [isPre_http_https] at h'
  exact Bool.false_ne_true h'

theorem sanitizeStep3_already_http (t : Str) :
    sanitizeStep3 ("http://".data ++ t) = "http://".data ++ t := by
  have hno : ¬(pyStartswith ("http://".data ++ t) "http:/".data = true
      ∧ ¬ pyStartswith ("http://".data ++ t) "http://".data = true) :=
    fun hc => hc.2 (isPre_append "http://".data t)
  simp only [sanitizeStep3]
  rw [if_neg hno, if_neg (step3_cond2_false_http t)]

theorem sanitizeStep3_already_https (t : Str) :
    sanitizeStep3 ("https://".data ++ t) = "https://".data ++ t := by
  have hno2 : ¬(pyStartswith ("https://".data ++ t) "https:/".data = true
      ∧ ¬ pyStartswith ("https://".data ++ t) "https://".data = true) :=
    fun hc => hc.2 (isPre_append "https://".data t)
  simp only [sanitizeStep3]
  rw [if_neg (step3_cond1_false_https t), if_neg hno2]

theorem sanitizeStep3_http (url : Str) (h : pyStartswith url "http:/".data = true) :
    ∃ t, sanitizeStep3 url = "http://".data ++ t := by
  by_cases h2 : pyStartswith url "http://".data = true
  · rcases (isPre_iff "http://".data url).1 h2 with ⟨t, rfl⟩
    exact ⟨t, sanitizeStep3_already_http t⟩
  · rcases (isPre_iff "http:/".data url).1 h with ⟨t, rfl⟩
    have hrep : pyReplace "http:/".data "http://".data ("http:/".data ++ t)
        = "http://".data ++ pyReplace "http:/".data "http://".data
            (("http:/".data ++ t).drop 6) :=
      pyReplace_pos 'h' ['t', 't', 'p', ':', '/'] "http://".data
        ("http:/".data ++ t) (isPre_append "http:/".data t)
    refine ⟨pyReplace "http:/".data "http://".data
      (("http:/".data ++ t).drop 6), ?_⟩
    have hA : pyStartswith ("http:/".data ++ t) "http:/".data = true
        ∧ ¬ pyStartswith ("http:/".data ++ t) "http://".data = true := ⟨h, h2⟩
    simp only [sanitizeStep3]
    rw [if_pos hA, hrep, if_neg (step3_cond2_false_http _)]

theorem sanitizeStep3_https (url : Str)
    (h : pyStartswith url "https:/".data = true) :
    ∃ t, sanitizeStep3 url = "https://".data ++ t := by
  by_cases h2 : pyStartswith url "https://".data = true
  · rcases (isPre_iff "https://".data url).1 h2 with ⟨t, rfl⟩
    exact ⟨t, sanitizeStep3_already_https t⟩
  · rcases (isPre_iff "https:/".data url).1 h with ⟨t, rfl⟩
    have hrep : pyReplace "https:/".data "https://".data ("https:/".data ++ t)
        = "https://".data ++ pyReplace "https:/".data "https://".data
            (("https:/".data ++ t).drop 7) :=
      pyReplace_pos 'h' ['t', 't', 'p', 's', ':', '/'] "https://".data
        ("https:/".data ++ t) (isPre_append "https:/".data t)
    refine ⟨pyReplace "https:/".data "https://".data
      (("https:/".data ++ t).drop 7), ?_⟩
    have hA : pyStartswith ("https:/".data ++ t) "https:/".data = true
        ∧ ¬ pyStartswith ("https:/".data ++ t) "https://".data = true := ⟨h, h2⟩
    simp only [sanitizeStep3]
    rw [if_neg (step3_cond1_false_httpscolon t), if_pos hA]
    exact hrep

theorem sanitizeStep1_id (url : Str) (hp : pyIn pubDup url = false) :
    sanitizeStep1 url = url := by
  simp only [sanitizeStep1]
  rw [if_neg (by simp [hp])]

theorem sanitizeStep2_id (url : Str) (hp : pyIn remDup url = false) :
    sanitizeStep2 url = url := by
  simp only [sanitizeStep2]
  rw [if_neg (by simp [hp])]

end WebDAV

namespace WebDAV

theorem sanitize_scheme_http (url res : Str)
    (hp1 : pyIn pubDup url = false) (hp2 : pyIn remDup url = false)
    (hcraig : sanitizeCraig
        (sanitizeStep4 (sanitizeStep3 (sanitizeStep2 (sanitizeStep1 url))))
      = sanitizeStep4 (sanitizeStep3 (sanitizeStep2 (sanitizeStep1 url))))
    (hres : sanitizeWebdavUrl url = some res)
    (hh : pyStartswith url "http:/".data = true) :
    pyStartswith res "http://".data = true := by
  have e2 : sanitizeStep2 (sanitizeStep1 url) = url := by
    rw [sanitizeStep1_id url hp1, sanitizeStep2_id url hp2]
  obtain ⟨t, ht⟩ := sanitizeStep3_http url hh
  have hnil : url ≠ [] := by
    rintro rfl
    exact absurd hh (by decide)
  rw [e2, ht] at hcraig
  simp only [sanitizeWebdavUrl] at hres
  rw [if_neg hnil, e2, ht] at hres
  cases t with
  | nil =>
    rw [pySplit1_scheme_http []] at hres
    exact Option.noConfusion hres
  | cons c ts =>
    rw [pySplit1_scheme_http (c :: ts)] at hres
    have hres' : res
        = sanitizeCraig (sanitizeStep4 ("http://".data ++ (c :: ts))) :=
      (Option.some.inj hres).symm
    rw [hres', hcraig]
    exact isPre_append "http://".data
      (collapseSlashes (c :: ts).length (c :: ts))

theorem sanitize_scheme_https (url res : Str)
    (hp1 : pyIn pubDup url = false) (hp2 : pyIn remDup url = false)
    (hcraig : sanitizeCraig
        (sanitizeStep4 (sanitizeStep3 (sanitizeStep2 (sanitizeStep1 url))))
      = sanitizeStep4 (sanitizeStep3 (sanitizeStep2 (sanitizeStep1 url))))
    (hres : sanitizeWebdavUrl url = some res)
    (hh : pyStartswith url "https:/".data = true) :
    pyStartswith res "https://".data = true := by
  have e2 : sanitizeStep2 (sanitizeStep1 url) = url := by
    rw [sanitizeStep1_id url hp1, sanitizeStep2_id url hp2]
  obtain ⟨t, ht⟩ := sanitizeStep3_https url hh
  have hnil : url ≠ [] := by
    rintro rfl
    exact absurd hh (by decide)
  rw [e2, ht] at hcraig
  simp only [sanitizeWebdavUrl] at hres
  rw [if_neg hnil, e2, ht] at hres
  cases t with
  | nil =>
    rw [pySplit1_scheme_https []] at hres
    exact Option.noConfusion hres
  | cons c ts =>
    rw [pySplit1_scheme_https (c :: ts)] at hres
    have hres' : res
        = sanitizeCraig (sanitizeStep4 ("https://".data ++ (c :: ts))) :=
      (Option.some.inj hres).symm
    rw [hres', hcraig]
    exact isPre_append "https://".data
      (collapseSlashes (c :: ts).length (c :: ts))

theorem sanitize_tail (url res a b : Str)
    (hres : sanitizeWebdavUrl url = some res)
    (hsplit : pySplit1 "://".data
        (sanitizeStep3 (sanitizeStep2 (sanitizeStep1 url))) = some (a, b))
    (hcraig : sanitizeCraig
        (sanitizeStep4 (sanitizeStep3 (sanitizeStep2 (sanitizeStep1 url))))
      = sanitizeStep4 (sanitizeStep3 (sanitizeStep2 (sanitizeStep1 url)))) :
    pySplit1 "://".data res = some (a, collapseSlashes b.length b)
    ∧ pyIn "//".data (collapseSlashes b.length b) = false := by
  have hnil : url ≠ [] := by
    rintro rfl
    rw [show sanitizeStep3 (sanitizeStep2 (sanitizeStep1 [])) = [] from by decide,
        show ("://".data : Str) = ':' :: ['/', '/'] from rfl,
        pySplit1_nil_of_cons] at hsplit
    exact Option.noConfusion hsplit
  simp only [sanitizeWebdavUrl] at hres
  rw [if_neg hnil, hsplit] at hres
  cases b with
  | nil => exact Option.noConfusion hres
  | cons c bs =>
    have hres' : res = sanitizeCraig
        (sanitizeStep4 (sanitizeStep3 (sanitizeStep2 (sanitizeStep1 url)))) :=
      (Option.some.inj hres).symm
    have hstep4 : sanitizeStep4 (sanitizeStep3 (sanitizeStep2 (sanitizeStep1 url)))
        = a ++ "://".data ++ collapseSlashes (c :: bs).length (c :: bs) := by
      simp only [sanitizeStep4]
      rw [hsplit]
    rw [hres', hcraig, hstep4]
    constructor
    · rw [show ("://".data : Str) = ':' :: ['/', '/'] from rfl]
      exact pySplit1_rebuild ':' ['/', '/'] _ a (c :: bs)
        (by rw [show (':' :: ['/', '/'] : Str) = "://".data from rfl]
            exact hsplit)
        (collapseSlashes (c :: bs).length (c :: bs))
    · exact collapseSlashes_no_dslash (c :: bs).length (c :: bs) le_rfl

theorem sanitize_clean_id (url res a b : Str)
    (hp1 : pyIn pubDup url = false) (hp2 : pyIn remDup url = false)
    (hsch : pyStartswith url "http://".data = true
      ∨ pyStartswith url "https://".data = true)
    (hsplit : pySplit1 "://".data url = some (a, b))
    (hnd : pyIn "//".data b = false)
    (hcraig : sanitizeCraig url = url)
    (hres : sanitizeWebdavUrl url = some res) :
    res = url := by
  have e2 : sanitizeStep2 (sanitizeStep1 url) = url := by
    rw [sanitizeStep1_id url hp1, sanitizeStep2_id url hp2]
  have e3 : sanitizeStep3 url = url := by
    rcases hsch with hsch | hsch
    · rcases (isPre_iff "http://".data url).1 hsch with ⟨t, rfl⟩
      exact sanitizeStep3_already_http t
    · rcases (isPre_iff "https://".data url).1 hsch with ⟨t, rfl⟩
      exact sanitizeStep3_already_https t
  have hnil : url ≠ [] := by
    rintro rfl
    rw [show ("://".data : Str) = ':' :: ['/', '/'] from rfl,
        pySplit1_nil_of_cons] at hsplit
    exact Option.noConfusion hsplit
  simp only [sanitizeWebdavUrl] at hres
  rw [if_neg hnil, e2, e3, hsplit] at hres
  cases b with
  | nil => exact Option.noConfusion hres
  | cons c bs =>
    have hres' : res = sanitizeCraig (sanitizeStep4 url) :=
      (Option.some.inj hres).symm
    have hstep4 : sanitizeStep4 url = url := by
      simp only [sanitizeStep4]
      rw [hsplit]
      show a ++ "://".data ++ collapseSlashes (c :: bs).length (c :: bs) = url
      rw [collapseSlashes_id _ _ hnd]
      rw [show ("://".data : Str) = ':' :: ['/', '/'] from rfl]
      exact (pySplit1_append ':' ['/', '/'] url a (c :: bs)
        (by rw [show (':' :: ['/', '/'] : Str) = "://".data from rfl]
            exact hsplit)).symm
    rw [hres', hstep4, hcraig]

end WebDAV

namespace WebDAV

/-- C1, counterexample: the duplication-removal is a single `replace`
    pass, so a tripled `public.php/webdav` leaves a doubled one — the
    substring `public.php/webdav/public.php/webdav` occurs in the
    returned url. -/
theorem C1_counterexample :
    sanitizeWebdavUrl
        "http://h/public.php/webdav/public.php/webdav/public.php/webdav/a".data
      = some "http://h/public.php/webdav/public.php/webdav/a".data
    ∧ pyIn pubDup
        "http://h/public.php/webdav/public.php/webdav/a".data = true := by
  constructor
  · decide
  · decide

/-- C1 (amended): for inputs on which the two known-duplication
    replacements do not fire and the CRAIG-specific last block leaves
    the url unchanged, `sanitize_webdav_url` (when it returns a url)
    repairs or preserves the scheme — an input starting `http:/`
    (resp. `https:/`) in any slash count yields an output starting
    `http://` (resp. `https://`) — and the output splits at the same
    first `://` with its tail double-slash-collapsed, hence contains no
    `//` after the scheme separator; an already-clean url (proper
    scheme, no duplications, no `//` after the scheme) is returned
    unchanged.  The no-`public.php/webdav`-duplication part of the
    original claim is false in general (single replace pass; see the
    counterexample). -/
theorem C1_sanitize_webdav_url_normalizes :
    (∀ url res, pyIn pubDup url = false → pyIn remDup url = false →
      sanitizeCraig
          (sanitizeStep4 (sanitizeStep3 (sanitizeStep2 (sanitizeStep1 url))))
        = sanitizeStep4 (sanitizeStep3 (sanitizeStep2 (sanitizeStep1 url))) →
      sanitizeWebdavUrl url = some res →
      (pyStartswith url "http:/".data = true →
        pyStartswith res "http://".data = true)
      ∧ (pyStartswith url "https:/".data = true →
        pyStartswith res "https://".data = true))
    ∧ (∀ url res a b, sanitizeWebdavUrl url = some res →
        pySplit1 "://".data
            (sanitizeStep3 (sanitizeStep2 (sanitizeStep1 url))) = some (a, b) →
        sanitizeCraig
            (sanitizeStep4 (sanitizeStep3 (sanitizeStep2 (sanitizeStep1 url))))
          = sanitizeStep4 (sanitizeStep3 (sanitizeStep2 (sanitizeStep1 url))) →
        pySplit1 "://".data res = some (a, collapseSlashes b.length b)
        ∧ pyIn "//".data (collapseSlashes b.length b) = false)
    ∧ (∀ url res a b, pyIn pubDup url = false → pyIn remDup url = false →
        (pyStartswith url "http://".data = true
          ∨ pyStartswith url "https://".data = true) →
        pySplit1 "://".data url = some (a, b) →
        pyIn "//".data b = false →
        sanitizeCraig url = url →
        sanitizeWebdavUrl url = some res →
        res = url) :=
  ⟨fun url res hp1 hp2 hcraig hres =>
    ⟨sanitize_scheme_http url res hp1 hp2 hcraig hres,
     sanitize_scheme_https url res hp1 hp2 hcraig hres⟩,
   fun url res a b hres hsplit hcraig =>
    sanitize_tail url res a b hres hsplit hcraig,
   fun url res a b hp1 hp2 hsch hsplit hnd hcraig hres =>
    sanitize_clean_id url res a b hp1 hp2 hsch hsplit hnd hcraig hres⟩

/-- C1, witness: a mangled scheme with a double slash
    (`http:/h//x` → `http://h/x`): the scheme is repaired, the tail is
    collapsed; and the already-clean `http://h/a` comes back unchanged. -/
theorem C1_witness :
    ((pyStartswith "http:/h//x".data "http:/".data = true →
        pyStartswith "http://h/x".data "http://".data = true)
      ∧ (pyStartswith "http:/h//x".data "https:/".data = true →
        pyStartswith "http://h/x".data "https://".data = true))
    ∧ (pySplit1 "://".data "http://h/x".data
        = some ("http".data, collapseSlashes "h//x".data.length "h//x".data)
      ∧ pyIn "//".data (collapseSlashes "h//x".data.length "h//x".data) = false)
    ∧ "http://h/a".data = "http://h/a".data :=
  ⟨C1_sanitize_webdav_url_normalizes.1 "http:/h//x".data "http://h/x".data
      (by decide) (by decide) (by decide) (by decide),
   C1_sanitize_webdav_url_normalizes.2.1 "http:/h//x".data "http://h/x".data
      "http".data "h//x".data (by decide) (by decide) (by decide),
   C1_sanitize_webdav_url_normalizes.2.2 "http://h/a".data "http://h/a".data
      "http".data "h/a".data (by decide) (by decide) (Or.inl (by decide))
      (by decide) (by decide) (by decide) (by decide)⟩

end WebDAV
